import Mathlib

/-!
# Verification of the sh-3ds perception-to-action control loop

A shallow embedding of the state-tracking, strategy, capture and input-encoding
components of the sh-3ds repository, together with proofs of its documented
behavioural properties.

Modelling conventions:

* C++ `double` values that are only produced, compared and combined by the code
  under verification (detection confidences, thresholds, success rates) are
  modelled as rationals `ℚ`; all comparisons the code performs on them are
  order comparisons of values whose spacing is far above the floating-point
  rounding error, so the verdicts coincide.
* The OpenCV vision primitives (`cv::cvtColor`, `cv::inRange`,
  `cv::countNonZero`, template matching) are external library calls on images;
  they are abstracted as per-tick measurement oracles that return the raw
  confidence a state rule evaluates to (`none` when the named ROI is missing
  from the ROI set, is empty, or the rule method is not recognised).
* `std::chrono::steady_clock` timestamps are modelled as natural-number
  millisecond counts supplied by the caller.
* `std::map` keyed containers are modelled as association lists looked up by
  key (keys are unique in the maps the code builds).
-/

namespace SH3DS

/-! ## Core data model (src/Core/Types.h, src/Core/Config.h) -/

/-- Detection rule of a state of the config-driven FSM
(`Core::StateDetectionRule`).  The HSV bounds and pixel-ratio window feed the
abstracted vision evaluation and are therefore not repeated here; the
threshold is the field the FSM logic itself consults. -/
structure StateDetectionRule where
  method : String
  roi : String
  templatePath : String := ""
  threshold : ℚ := 7/10
  deriving Repr, DecidableEq

/-- `Core::StateDefinition`: one state of the game profile. -/
structure StateDefinition where
  id : String
  detection : StateDetectionRule
  transitionsTo : List String
  maxDurationS : Int := 60
  deriving Repr, DecidableEq

/-- `Core::GameProfile` (the fields consumed by the FSM). -/
structure GameProfile where
  initialState : String := "unknown"
  states : List StateDefinition
  debounceFrames : Int := 3
  deriving Repr, DecidableEq

/-- `Core::StateTransition`: a recorded transition. -/
structure StateTransition where
  from_ : String
  to_ : String
  timestamp : Nat
  deriving Repr, DecidableEq

/-- Result of scoring the detection rules on one tick
(`ConfigDrivenFSM::DetectionResult`, `CXXStateTreeFSM::DetectionResult`). -/
structure DetectionResult where
  state : String
  confidence : ℚ
  deriving Repr, DecidableEq

/-! ## Transition history pruning (both FSMs, `RecordTransition`) -/

/-- `RecordTransition` (identical in `ConfigDrivenFSM.cpp:208` and
`CXXStateTreeFSM.cpp:397`): append, then once the length exceeds 1000 erase
the first 500 entries. -/
def recordTransition (history : List StateTransition) (t : StateTransition) :
    List StateTransition :=
  let h := history ++ [t]
  if 1000 < h.length then h.drop 500 else h

/-- Iterated recording starting from an empty history (the state after
construction or `Reset()`); the argument lists every transition ever
recorded, in order. -/
def recordAll (ts : List StateTransition) : List StateTransition :=
  ts.foldl recordTransition []

/-! ## ConfigDrivenFSM (src/FSM/ConfigDrivenFSM.cpp)

The per-tick measurement oracle `measure : String → Option ℚ` returns, for a
state id, the confidence `EvaluateTemplateMatch`/`EvaluateColorHistogram`
computes for that state's rule on this tick's ROI set (an unrecognised method
leaves the confidence at `0.0`, hence `some 0`), and `none` when the rule's
ROI is absent from the set or empty (the `continue` branch). -/

/-- `ConfigDrivenFSM::EvaluateRules`: fold over the profile's states keeping
the highest confidence that meets its own rule's threshold; ties keep the
earlier state.  `bestResult` starts as `{"", 0.0}`. -/
def evaluateRules (states : List StateDefinition) (measure : String → Option ℚ) :
    DetectionResult :=
  states.foldl
    (fun best sd =>
      match measure sd.id with
      | none => best
      | some c =>
        if sd.detection.threshold ≤ c ∧ best.confidence < c then
          { state := sd.id, confidence := c }
        else best)
    { state := "", confidence := 0 }

/-- A tick's measurement makes `s` the winning candidate of
`ConfigDrivenFSM::Update`: the rule evaluation selects `s` (so `s` met its
own threshold and beat every other state that met its threshold) and the
winner passes the `confidence < 0.01` gate. -/
def cdWins (states : List StateDefinition) (measure : String → Option ℚ)
    (s : String) : Prop :=
  (evaluateRules states measure).state = s ∧ s ≠ "" ∧
    (1/100 : ℚ) ≤ (evaluateRules states measure).confidence

/-- Mutable state of a `ConfigDrivenFSM`. -/
structure ConfigDrivenFSM where
  profile : GameProfile
  currentState : String
  stateEnteredAt : Nat
  pendingState : String
  pendingFrameCount : Nat
  history : List StateTransition
  deriving Repr

/-- Constructor + `Reset()`. -/
def ConfigDrivenFSM.init (profile : GameProfile) (now : Nat) : ConfigDrivenFSM :=
  { profile := profile, currentState := profile.initialState, stateEnteredAt := now,
    pendingState := "", pendingFrameCount := 0, history := [] }

/-- `ConfigDrivenFSM::Update`: evaluate rules, debounce, validate the
transition against the current state's `transitionsTo` list (the check is
skipped when the current state is not found in the profile or its
`transitionsTo` list is empty), commit and record. -/
def ConfigDrivenFSM.update (fsm : ConfigDrivenFSM) (measure : String → Option ℚ)
    (now : Nat) : ConfigDrivenFSM × Option StateTransition :=
  let result := evaluateRules fsm.profile.states measure
  if result.state = "" ∨ result.confidence < 1/100 then
    ({ fsm with pendingFrameCount := 0 }, none)
  else if result.state ≠ fsm.currentState then
    let fsm1 :=
      if result.state = fsm.pendingState then
        { fsm with pendingFrameCount := fsm.pendingFrameCount + 1 }
      else
        { fsm with pendingState := result.state, pendingFrameCount := 1 }
    if fsm1.profile.debounceFrames ≤ (fsm1.pendingFrameCount : Int) ∧
        fsm1.pendingState ≠ fsm1.currentState then
      let allowed :=
        match fsm1.profile.states.find? (fun sd => sd.id == fsm1.currentState) with
        | some sdef =>
          sdef.transitionsTo.isEmpty || sdef.transitionsTo.contains fsm1.pendingState
        | none => true
      if allowed then
        let t : StateTransition :=
          { from_ := fsm1.currentState, to_ := fsm1.pendingState, timestamp := now }
        ({ fsm1 with currentState := fsm1.pendingState, stateEnteredAt := now,
                     pendingFrameCount := 0,
                     history := recordTransition fsm1.history t }, some t)
      else (fsm1, none)
    else (fsm1, none)
  else
    ({ fsm with pendingState := "", pendingFrameCount := 0 }, none)

/-- `ConfigDrivenFSM::ForceState`: unconditionally make `state` current,
restart the dwell timer, reset the debounce bookkeeping and record the
transition. -/
def ConfigDrivenFSM.forceState (fsm : ConfigDrivenFSM) (state : String) (now : Nat) :
    ConfigDrivenFSM :=
  let t : StateTransition := { from_ := fsm.currentState, to_ := state, timestamp := now }
  { fsm with currentState := state, stateEnteredAt := now, pendingState := state,
             pendingFrameCount := 0, history := recordTransition fsm.history t }

/-! ## CXXStateTreeFSM (src/FSM/CXXStateTreeFSM.cpp)

The per-tick measurement oracle `measure : RoiDetectionParams → Side → Option ℚ`
returns the raw confidence `EvaluateTemplateMatch`/`EvaluateColorHistogram`
computes for a ROI detection block against the top or bottom ROI set of the
tick; `none` stands for the `evaluateForRoi` early exits that precede the
threshold test (the block's ROI is absent from that set or empty, or the
method string is not recognised). -/

/-- `Core::ScreenMode`. -/
inductive ScreenMode
  | Single
  | Dual
  deriving Repr, DecidableEq

/-- Which of the two per-tick ROI sets a detection block is evaluated
against. -/
inductive Side
  | top
  | bottom
  deriving Repr, DecidableEq

/-- `Core::RoiDetectionParams` (HSV bounds and pixel-ratio window feed the
abstracted vision evaluation). -/
structure RoiDetectionParams where
  roi : String
  method : String
  threshold : ℚ := 7/10
  templatePath : String := ""
  deriving Repr, DecidableEq

/-- `Core::StateDetectionParams`: optional top/bottom detection blocks. -/
structure StateDetectionParams where
  top : Option RoiDetectionParams := none
  bottom : Option RoiDetectionParams := none
  deriving Repr, DecidableEq

/-- `CXXStateTreeFSM::StateConfig`. -/
structure StateConfig where
  id : String
  transitionsTo : List String
  maxDurationS : Int := 60
  shinyCheck : Bool := false
  detectionParameters : StateDetectionParams
  deriving Repr, DecidableEq

/-- The `evaluateForRoi` lambda inside `DetectBestCandidateState`: evaluate an
optional detection block against one ROI set and apply its threshold. -/
def evaluateForRoi (params : Option RoiDetectionParams) (side : Side)
    (measure : RoiDetectionParams → Side → Option ℚ) : Option ℚ :=
  match params with
  | none => none
  | some p =>
    match measure p side with
    | none => none
    | some c => if c < p.threshold then none else some c

/-- The per-state body of the `DetectBestCandidateState` loop: the
"no detection block at all" `continue`, then the single/dual-screen
combination of the per-block confidences (`none` stands for the loop's
`continue` outcomes). -/
def combinedConfidence (sc : StateConfig) (screenMode : ScreenMode)
    (measure : RoiDetectionParams → Side → Option ℚ) : Option ℚ :=
  let hasTop := sc.detectionParameters.top.isSome
  let hasBottom := sc.detectionParameters.bottom.isSome
  if ¬ hasTop ∧ ¬ hasBottom then none
  else
    match screenMode with
    | .Single =>
      let block :=
        if hasTop then sc.detectionParameters.top else sc.detectionParameters.bottom
      match evaluateForRoi block .top measure with
      | some c => some c
      | none => evaluateForRoi block .bottom measure
    | .Dual =>
      let tc := evaluateForRoi sc.detectionParameters.top .top measure
      let bc := evaluateForRoi sc.detectionParameters.bottom .bottom measure
      if hasTop ∧ hasBottom then
        match tc, bc with
        | some a, some b => some (min a b)
        | _, _ => none
      else if hasTop then tc else bc

/-- `CXXStateTreeFSM::DetectBestCandidateState`: when the current state has a
config, restrict candidates to the current state and its `transitionsTo`
targets, then keep the highest combined confidence.  In `Single` mode a
state's single block is tried against the top ROI set and then the bottom
one; in `Dual` mode the top/bottom blocks are evaluated against their own
sets and a state with both blocks combines them as the minimum. -/
def detectBestCandidateState (stateConfigs : List StateConfig) (screenMode : ScreenMode)
    (currentState : String) (measure : RoiDetectionParams → Side → Option ℚ) :
    DetectionResult :=
  let currentConfig := stateConfigs.find? (fun sc => sc.id == currentState)
  let constrained := currentConfig.isSome
  let candidates : List String :=
    match currentConfig with
    | some c => currentState :: c.transitionsTo
    | none => []
  stateConfigs.foldl
    (fun best sc =>
      if constrained ∧ ¬ candidates.contains sc.id then best
      else
        match combinedConfidence sc screenMode measure with
        | none => best
        | some c =>
          if best.confidence < c then { state := sc.id, confidence := c } else best)
    { state := "", confidence := 0 }

/-- A tick's measurement makes `s` the winning candidate of
`CXXStateTreeFSM::Update` from current state `cs`: the candidate detection
selects `s` and the winner passes the `confidence < 0.01` gate. -/
def cxWins (stateConfigs : List StateConfig) (screenMode : ScreenMode) (cs : String)
    (measure : RoiDetectionParams → Side → Option ℚ) (s : String) : Prop :=
  (detectBestCandidateState stateConfigs screenMode cs measure).state = s ∧ s ≠ "" ∧
    (1/100 : ℚ) ≤ (detectBestCandidateState stateConfigs screenMode cs measure).confidence

/-- Mutable state of a `CXXStateTreeFSM`.  `treeState` is the current state of
the wrapped `CXXStateTree::StateTree`; the `Builder` registers, for every
state config, one event per `transitionsTo` target, so the tree accepts a
send exactly when the target is in the tree state's `transitionsTo` list
(`tree->send` throws otherwise).  The tree mirrors `currentState` because
every commit goes through a successful send and `Reset()` rebuilds both. -/
structure CXXStateTreeFSM where
  initialState : String
  debounceFrames : Int
  screenMode : ScreenMode
  stateConfigs : List StateConfig
  treeState : String
  currentState : String
  stateEnteredAt : Nat
  pendingState : String
  pendingFrameCount : Nat
  transitionHistory : List StateTransition
  deriving Repr

/-- `Builder::Build` followed by the constructor's `Reset()`. -/
def CXXStateTreeFSM.build (initialState : String) (debounceFrames : Int)
    (screenMode : ScreenMode) (stateConfigs : List StateConfig) (now : Nat) :
    CXXStateTreeFSM :=
  { initialState := initialState, debounceFrames := debounceFrames,
    screenMode := screenMode, stateConfigs := stateConfigs,
    treeState := initialState, currentState := initialState, stateEnteredAt := now,
    pendingState := "", pendingFrameCount := 0, transitionHistory := [] }

/-- `CXXStateTreeFSM::Update`: detect the best candidate, debounce, validate
against the current state's `transitionsTo` (skipped when the current state
has no config or its list is empty), then send the event through the state
tree (which rejects a target not registered for the tree's current state)
and commit. -/
def CXXStateTreeFSM.update (fsm : CXXStateTreeFSM)
    (measure : RoiDetectionParams → Side → Option ℚ) (now : Nat) :
    CXXStateTreeFSM × Option StateTransition :=
  let best := detectBestCandidateState fsm.stateConfigs fsm.screenMode fsm.currentState measure
  if best.state = "" ∨ best.confidence < 1/100 then
    ({ fsm with pendingFrameCount := 0 }, none)
  else if best.state = fsm.currentState then
    ({ fsm with pendingState := "", pendingFrameCount := 0 }, none)
  else
    let fsm1 :=
      if best.state = fsm.pendingState then
        { fsm with pendingFrameCount := fsm.pendingFrameCount + 1 }
      else
        { fsm with pendingState := best.state, pendingFrameCount := 1 }
    if (fsm1.pendingFrameCount : Int) < fsm1.debounceFrames ∨
        fsm1.pendingState = fsm1.currentState then
      (fsm1, none)
    else
      let isTransitionAllowed :=
        match fsm1.stateConfigs.find? (fun sc => sc.id == fsm1.currentState) with
        | some config =>
          config.transitionsTo.isEmpty || config.transitionsTo.contains fsm1.pendingState
        | none => true
      if isTransitionAllowed then
        let treeAccepts :=
          match fsm1.stateConfigs.find? (fun sc => sc.id == fsm1.treeState) with
          | some config => config.transitionsTo.contains fsm1.pendingState
          | none => false
        if treeAccepts then
          let t : StateTransition :=
            { from_ := fsm1.currentState, to_ := fsm1.pendingState, timestamp := now }
          ({ fsm1 with treeState := fsm1.pendingState, currentState := fsm1.pendingState,
                       stateEnteredAt := now, pendingFrameCount := 0,
                       transitionHistory := recordTransition fsm1.transitionHistory t },
           some t)
        else
          ({ fsm1 with pendingState := "", pendingFrameCount := 0 }, none)
      else
        ({ fsm1 with pendingState := "", pendingFrameCount := 0 }, none)

/-- One tick of input to a `CXXStateTreeFSM` run. -/
structure CxTick where
  measure : RoiDetectionParams → Side → Option ℚ
  now : Nat

/-- Run a sequence of `CXXStateTreeFSM::Update` calls, collecting the return
values. -/
def CXXStateTreeFSM.run (fsm : CXXStateTreeFSM) (ticks : List CxTick) :
    CXXStateTreeFSM × List (Option StateTransition) :=
  match ticks with
  | [] => (fsm, [])
  | tk :: rest =>
    let step := fsm.update tk.measure tk.now
    let tail := step.1.run rest
    (tail.1, step.2 :: tail.2)

/-- One tick of input to a `ConfigDrivenFSM` run: the measurement oracle for
the tick's ROI set and the tick's clock reading. -/
structure CdTick where
  measure : String → Option ℚ
  now : Nat

/-- Run a sequence of `Update` calls, collecting each call's return value. -/
def ConfigDrivenFSM.run (fsm : ConfigDrivenFSM) (ticks : List CdTick) :
    ConfigDrivenFSM × List (Option StateTransition) :=
  match ticks with
  | [] => (fsm, [])
  | tk :: rest =>
    let step := fsm.update tk.measure tk.now
    let tail := step.1.run rest
    (tail.1, step.2 :: tail.2)

/-! ## Input commands and wire encoding (src/Input) -/

/-- `Input::AnalogStick` (float axes modelled as rationals). -/
structure AnalogStick where
  x : ℚ := 0
  y : ℚ := 0
  deriving Repr, DecidableEq

/-- `Input::TouchPoint` (`x`, `y` are `uint16_t`). -/
structure TouchPoint where
  x : Nat := 0
  y : Nat := 0
  touching : Bool := false
  deriving Repr, DecidableEq

/-- `Input::InputCommand` (`buttonsPressed`, `interfaceButtons` are
`uint32_t` bitmasks). -/
structure InputCommand where
  buttonsPressed : Nat := 0
  circlePad : AnalogStick := {}
  cStick : AnalogStick := {}
  touch : TouchPoint := {}
  interfaceButtons : Nat := 0
  deriving Repr, DecidableEq

/-- `static_cast<int>` applied to a C++ floating-point value: truncation
toward zero. -/
def truncQ (q : ℚ) : Int :=
  if 0 ≤ q then ⌊q⌋ else ⌈q⌉

/-- `Input::WriteLe32`: serialise a `uint32_t` as four little-endian bytes. -/
def writeLe32 (v : Nat) : List Nat :=
  [v &&& 0xFF, (v >>> 8) &&& 0xFF, (v >>> 16) &&& 0xFF, (v >>> 24) &&& 0xFF]

/-- `Input::EncodeLuma3DSPacket` (src/Input/InputEncoding.h:40).  The C++
`~` on `uint32_t` is modelled as xor with `0xFFFFFFFF`; the
`static_cast<uint32_t>` of the signed offset results reduces modulo `2^32`
before the low-bit masks. -/
def encodeLuma3DSPacket (cmd : InputCommand) : List Nat :=
  let hid := 0x00000FFF &&& ((cmd.buttonsPressed &&& 0x0FFF) ^^^ 0xFFFFFFFF)
  let touchWord :=
    if cmd.touch.touching then (cmd.touch.y <<< 16) ||| cmd.touch.x else 0x02000000
  let cx := ((truncQ (cmd.circlePad.x * 0x5D0) + 0x800) % (2 ^ 32 : Int)).toNat &&& 0xFFF
  let cy := ((truncQ (cmd.circlePad.y * 0x5D0) + 0x800) % (2 ^ 32 : Int)).toNat &&& 0xFFF
  let circleWord := (cy <<< 12) ||| cx
  let csx := ((truncQ (cmd.cStick.x * 0x7F) + 0x80) % (2 ^ 32 : Int)).toNat &&& 0xFF
  let csy := ((truncQ (cmd.cStick.y * 0x7F) + 0x80) % (2 ^ 32 : Int)).toNat &&& 0xFF
  let csWord := (csy <<< 24) ||| (csx <<< 16) ||| 0x0081
  writeLe32 hid ++ writeLe32 touchWord ++ writeLe32 circleWord ++ writeLe32 csWord ++
    writeLe32 cmd.interfaceButtons

/-- The packet layout exactly as the specification describes it, written with
plain arithmetic: four little-endian byte groups holding the inverted 12-bit
button mask, the touch word `(y<<16)|x` or the sentinel, the packed 12-bit
circle-pad fields, the two 8-bit c-stick fields over the constant `0x0081`,
and the auxiliary mask. -/
def le32BytesSpec (v : Nat) : List Nat :=
  [v % 256, v / 256 % 256, v / 65536 % 256, v / 16777216 % 256]

/-- The 20-byte packet as described by the specification sentence for the
wire encoding (a refinement reference for `encodeLuma3DSPacket`). -/
def encodeLuma3DSPacketSpec (cmd : InputCommand) : List Nat :=
  let hid := 0xFFF - cmd.buttonsPressed % 4096
  let touchWord :=
    if cmd.touch.touching then cmd.touch.y * 65536 + cmd.touch.x else 0x02000000
  let cx := ((truncQ (cmd.circlePad.x * 0x5D0) + 0x800) % 4096).toNat
  let cy := ((truncQ (cmd.circlePad.y * 0x5D0) + 0x800) % 4096).toNat
  let csx := ((truncQ (cmd.cStick.x * 0x7F) + 0x80) % 256).toNat
  let csy := ((truncQ (cmd.cStick.y * 0x7F) + 0x80) % 256).toNat
  le32BytesSpec hid ++ le32BytesSpec touchWord ++ le32BytesSpec (cy * 4096 + cx) ++
    le32BytesSpec (csy * 16777216 + csx * 65536 + 0x81) ++
    le32BytesSpec cmd.interfaceButtons

/-! ## SoftResetStrategy (src/Strategy/SoftResetStrategy.cpp) -/

/-- `Core::ShinyVerdict`. -/
inductive ShinyVerdict
  | NotShiny
  | Shiny
  | Uncertain
  deriving Repr, DecidableEq

/-- `Core::ShinyResult` (the debug image is irrelevant to the strategy). -/
structure ShinyResult where
  verdict : ShinyVerdict := .Uncertain
  confidence : ℚ := 0
  method : String := ""
  details : String := ""
  deriving Repr, DecidableEq

/-- `Core::HuntAction`. -/
inductive HuntAction
  | Wait
  | SendInput
  | CheckShiny
  | AlertShiny
  | Reset
  | Abort
  deriving Repr, DecidableEq

/-- `Core::HuntDecision` (delay in milliseconds). -/
structure HuntDecision where
  action : HuntAction := .Wait
  reason : String := ""
  delay : Int := 0
  deriving Repr, DecidableEq

/-- `Strategy::StrategyDecision`. -/
structure StrategyDecision where
  decision : HuntDecision
  command : InputCommand := {}
  deriving Repr, DecidableEq

/-- `Core::HuntStatistics` (timestamps as millisecond counts). -/
structure HuntStatistics where
  encounters : Nat := 0
  shiniesFound : Nat := 0
  huntStarted : Nat := 0
  lastEncounter : Nat := 0
  avgCycleSeconds : ℚ := 0
  errors : Nat := 0
  watchdogRecoveries : Nat := 0
  deriving Repr, DecidableEq

/-- `Core::InputAction` (`repeat` is a Lean keyword, hence `repeat_`). -/
structure InputAction where
  buttons : List String := []
  holdMs : Int := 120
  waitAfterMs : Int := 200
  repeat_ : Bool := false
  waitMs : Int := 0
  deriving Repr, DecidableEq

/-- `Core::RecoveryPolicy`. -/
structure RecoveryPolicy where
  action : String := "soft_reset"
  maxRetries : Int := 5
  maxConsecutive : Int := 10
  deriving Repr, DecidableEq

/-- `Core::HuntConfig` (the fields the strategy consumes; the `std::map` of
per-state action lists is an association list with unique keys). -/
structure HuntConfig where
  huntId : String := ""
  targetPokemon : String := ""
  actions : List (String × List InputAction) := []
  shinyCheckState : String := ""
  shinyCheckDelayMs : Int := 1500
  onStuck : RecoveryPolicy := {}
  deriving Repr, DecidableEq

/-- Lookup in the per-state action map (`config.actions.find(currentState)`). -/
def lookupActions (actions : List (String × List InputAction)) (key : String) :
    Option (List InputAction) :=
  (actions.find? (fun p => p.1 == key)).map (fun p => p.2)

/-- `SoftResetStrategy::ButtonNameToBit`. -/
def buttonNameToBit (name : String) : Nat :=
  if name = "A" then 0x0001
  else if name = "B" then 0x0002
  else if name = "SELECT" then 0x0004
  else if name = "START" then 0x0008
  else if name = "D_RIGHT" then 0x0010
  else if name = "D_LEFT" then 0x0020
  else if name = "D_UP" then 0x0040
  else if name = "D_DOWN" then 0x0080
  else if name = "R" then 0x0100
  else if name = "L" then 0x0200
  else if name = "X" then 0x0400
  else if name = "Y" then 0x0800
  else 0

/-- `SoftResetStrategy::BuildInputCommand`. -/
def buildInputCommand (buttons : List String) : InputCommand :=
  { buttonsPressed := buttons.foldl (fun acc b => acc ||| buttonNameToBit b) 0 }

/-- Mutable state of a `SoftResetStrategy`. -/
structure SoftResetStrategy where
  config : HuntConfig
  stats : HuntStatistics := {}
  lastState : String := ""
  actionIndex : Nat := 0
  lastActionTime : Nat := 0
  waitingForShinyCheck : Bool := false
  consecutiveStuckCount : Nat := 0
  deriving Repr

/-- Convenience constructor for a `Wait` decision. -/
def waitDecision (reason : String) : StrategyDecision :=
  { decision := { action := .Wait, reason := reason } }

/-- The `Tick` prologue: on a state change, reset the action index, the shiny
wait flag and the consecutive stuck counter. -/
def stateChangeReset (st : SoftResetStrategy) (currentState : String) :
    SoftResetStrategy :=
  if currentState ≠ st.lastState then
    { st with lastState := currentState, actionIndex := 0,
              waitingForShinyCheck := false, consecutiveStuckCount := 0 }
  else st

/-- The "Execute button actions" block at the end of `Tick` (reached after
the standalone-wait block, possibly with the index advanced). -/
def tickButtonPhase (st : SoftResetStrategy) (currentState : String)
    (stateActions : List InputAction) (now : Nat) :
    SoftResetStrategy × StrategyDecision :=
  if h : st.actionIndex < stateActions.length then
    let action := stateActions.get ⟨st.actionIndex, h⟩
    if action.buttons ≠ [] then
      if (action.waitAfterMs : Int) ≤ (now : Int) - (st.lastActionTime : Int) then
        ({ st with lastActionTime := now,
                   actionIndex := if action.repeat_ then st.actionIndex else st.actionIndex + 1 },
         { decision := { action := .SendInput,
                         reason := "pressing buttons for state: " ++ currentState,
                         delay := action.holdMs },
           command := buildInputCommand action.buttons })
      else (st, waitDecision "waiting for next action window")
    else (st, waitDecision "waiting for next action window")
  else (st, waitDecision "waiting for next action window")

/-- The action-list section of `Tick` (everything after the shiny-check
branch): look up the state's actions, serve a standalone wait step, then run
the button phase. -/
def tickActions (st : SoftResetStrategy) (currentState : String) (timeInState : Nat)
    (now : Nat) : SoftResetStrategy × StrategyDecision :=
  match lookupActions st.config.actions currentState with
  | none => (st, waitDecision ("no actions for state: " ++ currentState))
  | some stateActions =>
    if stateActions = [] then
      (st, waitDecision ("no actions for state: " ++ currentState))
    else
      if h : st.actionIndex < stateActions.length then
        let action := stateActions.get ⟨st.actionIndex, h⟩
        if 0 < action.waitMs ∧ action.buttons = [] then
          if (timeInState : Int) < action.waitMs then
            (st, waitDecision ("waiting " ++ toString action.waitMs ++ "ms"))
          else
            tickButtonPhase { st with actionIndex := st.actionIndex + 1 }
              currentState stateActions now
        else tickButtonPhase st currentState stateActions now
      else tickButtonPhase st currentState stateActions now

/-- `SoftResetStrategy::Tick` (src/Strategy/SoftResetStrategy.cpp:13). -/
def SoftResetStrategy.tick (st0 : SoftResetStrategy) (currentState : String)
    (timeInState : Nat) (shinyResult : Option ShinyResult) (now : Nat) :
    SoftResetStrategy × StrategyDecision :=
  let st := stateChangeReset st0 currentState
  if currentState = st.config.shinyCheckState then
    if (timeInState : Int) < st.config.shinyCheckDelayMs then
      (st, waitDecision "waiting for shiny check delay")
    else
      match shinyResult with
      | some r =>
        match r.verdict with
        | .Shiny =>
          ({ st with stats := { st.stats with shiniesFound := st.stats.shiniesFound + 1 } },
           { decision := { action := .AlertShiny,
                           reason := "Shiny detected! " ++ r.details } })
        | .NotShiny =>
          let encounters := st.stats.encounters + 1
          let avg :=
            if 1 < encounters then
              ((now : ℚ) - (st.stats.huntStarted : ℚ)) / 1000 / (encounters : ℚ)
            else st.stats.avgCycleSeconds
          let st1 :=
            { st with stats := { st.stats with encounters := encounters,
                                               avgCycleSeconds := avg,
                                               lastEncounter := now },
                      waitingForShinyCheck := false }
          tickActions st1 currentState timeInState now
        | .Uncertain =>
          (st, { decision := { action := .CheckShiny,
                               reason := "uncertain verdict, re-checking" } })
      | none =>
        (st, { decision := { action := .CheckShiny,
                             reason := "requesting shiny check" } })
  else
    tickActions st currentState timeInState now

/-- `SoftResetStrategy::OnStuck` (src/Strategy/SoftResetStrategy.cpp:138). -/
def SoftResetStrategy.onStuck (st : SoftResetStrategy) :
    SoftResetStrategy × StrategyDecision :=
  let st1 :=
    { st with stats := { st.stats with
                           watchdogRecoveries := st.stats.watchdogRecoveries + 1 },
              consecutiveStuckCount := st.consecutiveStuckCount + 1 }
  if st1.config.onStuck.maxRetries < (st1.consecutiveStuckCount : Int) then
    (st1, { decision := { action := .Abort, reason := "exceeded max stuck recoveries" } })
  else
    (st1, { decision := { action := .SendInput,
                          reason := "stuck recovery: forcing soft reset", delay := 500 },
            command := buildInputCommand ["L", "R", "START"] })

/-- One call in an interleaved sequence of strategy entry points. -/
inductive StrategyEvent
  | tickEvent (currentState : String) (timeInState : Nat)
      (shinyResult : Option ShinyResult) (now : Nat)
  | stuckEvent
  deriving Repr

/-- Run a sequence of `Tick`/`OnStuck` calls, collecting every decision. -/
def SoftResetStrategy.runEvents (st : SoftResetStrategy) (events : List StrategyEvent) :
    SoftResetStrategy × List StrategyDecision :=
  match events with
  | [] => (st, [])
  | .tickEvent cs tis sr now :: rest =>
    let step := st.tick cs tis sr now
    let tail := step.1.runEvents rest
    (tail.1, step.2 :: tail.2)
  | .stuckEvent :: rest =>
    let step := st.onStuck
    let tail := step.1.runEvents rest
    (tail.1, step.2 :: tail.2)

/-- Number of `OnStuck` calls in an event sequence. -/
def countStuck : List StrategyEvent → Nat
  | [] => 0
  | .stuckEvent :: rest => countStuck rest + 1
  | .tickEvent _ _ _ _ :: rest => countStuck rest

/-! ## ScreenDetector calibration lock (src/Capture/ScreenDetector.cpp)

`DetectOnce` and `SmoothCorners` are image-processing code whose outputs are
supplied per tick: `r` is the detection result after smoothing, `s1` the
smoothing state after `SmoothCorners`, and `split1` the split-point value the
corner averages would produce.  What is embedded is everything `Detect` does
with them: the calibrated short-circuit, the split-point update, the rolling
calibration window and the lock decision. -/

/-- `Capture::ScreenDetectionResult`, generic over the per-screen payload
(corners, confidence, aspect ratio). -/
structure ScreenDetectionResult (C : Type) where
  topScreen : Option C := none
  bottomScreen : Option C := none
  deriving Repr, DecidableEq

/-- The configuration fields `Detect` consults. -/
structure ScreenDetectorConfig where
  calibrationFrames : Int := 15
  smoothingWindowSize : Int := 10
  deriving Repr, DecidableEq

/-- `ScreenDetector::kCalibrationWindowSize`. -/
def kCalibrationWindowSize : Nat := 20

/-- `ScreenDetector::kCalibrationSuccessThreshold` (0.8). -/
def kCalibrationSuccessThreshold : ℚ := 4/5

/-- Mutable state of a `ScreenDetector`; `S` is the (abstracted) corner
smoothing state. -/
structure ScreenDetector (C S : Type) where
  config : ScreenDetectorConfig
  smoothState : S
  splitPointY : ℚ
  calibrated : Bool
  calibratedResult : ScreenDetectionResult C
  calibrationWindow : List Bool

/-- The rolling-window update inside `Detect`: push the tick's
"both screens detected" flag and pop the front once the window exceeds
`kCalibrationWindowSize`. -/
def calibrationWindowAfter (window : List Bool) (bothDetected : Bool) : List Bool :=
  let w1 := window ++ [bothDetected]
  if kCalibrationWindowSize < w1.length then w1.tail else w1

/-- `ScreenDetector::Detect` (src/Capture/ScreenDetector.cpp:29). -/
def ScreenDetector.detect (d : ScreenDetector C S) (r : ScreenDetectionResult C)
    (s1 : S) (split1 : ℚ) : ScreenDetector C S × ScreenDetectionResult C :=
  if d.calibrated then (d, d.calibratedResult)
  else
    let bothDetected := r.topScreen.isSome && r.bottomScreen.isSome
    let d1 := { d with smoothState := s1 }
    let d2 := if bothDetected then { d1 with splitPointY := split1 } else d1
    let w2 := calibrationWindowAfter d2.calibrationWindow bothDetected
    let d3 := { d2 with calibrationWindow := w2 }
    if d3.config.calibrationFrames ≤ (w2.length : Int) then
      let successes := w2.count true
      let successRate : ℚ := (successes : ℚ) / (w2.length : ℚ)
      if kCalibrationSuccessThreshold ≤ successRate ∧ bothDetected = true then
        ({ d3 with calibrated := true, calibratedResult := r }, r)
      else (d3, r)
    else (d3, r)

/-- `ScreenDetector::Reset` (`s0` is the cleared smoothing state, i.e. both
smoothed corner sets `nullopt` and the miss counters zero). -/
def ScreenDetector.reset (d : ScreenDetector C S) (s0 : S) : ScreenDetector C S :=
  { d with smoothState := s0, splitPointY := -1, calibrated := false,
           calibrationWindow := [], calibratedResult := {} }

/-- One `Detect` call's worth of oracle inputs. -/
structure DetectInput (C S : Type) where
  r : ScreenDetectionResult C
  s1 : S
  split1 : ℚ

/-- Run a sequence of `Detect` calls, collecting the returned results. -/
def ScreenDetector.detectRun (d : ScreenDetector C S) (inputs : List (DetectInput C S)) :
    ScreenDetector C S × List (ScreenDetectionResult C) :=
  match inputs with
  | [] => (d, [])
  | i :: rest =>
    let step := d.detect i.r i.s1 i.split1
    let tail := step.1.detectRun rest
    (tail.1, step.2 :: tail.2)

/-! ## ROI extraction (src/Capture/FramePreprocessor.cpp) -/

/-- `Core::RoiDefinition`: fractional rectangle with a name. -/
structure RoiDefinition where
  name : String
  x : ℚ := 0
  y : ℚ := 0
  w : ℚ := 0
  h : ℚ := 0
  deriving Repr, DecidableEq

/-- A pixel rectangle (the `cv::Rect` passed to the sub-image view). -/
structure RoiRect where
  x : Int
  y : Int
  w : Int
  h : Int
  deriving Repr, DecidableEq

/-- `std::round` on a C++ double: round half away from zero. -/
def cppRound (q : ℚ) : Int :=
  if 0 ≤ q then ⌊q + 1/2⌋ else -⌊-q + 1/2⌋

/-- The per-definition pixel rectangle computed inside
`FramePreprocessor::ExtractRois`: round the fractional coordinates to pixels,
clamp the origin into the image, clamp the extent to the remaining space. -/
def extractRoiRect (d : RoiDefinition) (targetWidth targetHeight : Int) : RoiRect :=
  let x := cppRound (d.x * targetWidth)
  let y := cppRound (d.y * targetHeight)
  let w := cppRound (d.w * targetWidth)
  let h := cppRound (d.h * targetHeight)
  let x := max 0 (min x (targetWidth - 1))
  let y := max 0 (min y (targetHeight - 1))
  let w := min w (targetWidth - x)
  let h := min h (targetHeight - y)
  { x := x, y := y, w := w, h := h }

/-- `FramePreprocessor::ExtractRois` (src/Capture/FramePreprocessor.cpp:111):
definitions whose clamped width or height is not positive are skipped; the
result maps each surviving name to its pixel rectangle (the `ROISet` is a
`std::map`, modelled as the association list in definition order). -/
def extractRois (roiDefs : List RoiDefinition) (targetWidth targetHeight : Int) :
    List (String × RoiRect) :=
  roiDefs.filterMap (fun d =>
    let r := extractRoiRect d targetWidth targetHeight
    if 0 < r.w ∧ 0 < r.h then some (d.name, r) else none)

/-! ## Helper lemmas about history pruning -/

theorem recordTransition_length (h : List StateTransition) (t : StateTransition) :
    (recordTransition h t).length =
      if 1000 < h.length + 1 then h.length + 1 - 500 else h.length + 1 := by
  simp only [recordTransition, List.length_append, List.length_singleton]
  split <;> simp

theorem recordTransition_le_1000 (h : List StateTransition) (t : StateTransition)
    (hh : h.length ≤ 1000) : (recordTransition h t).length ≤ 1000 := by
  rw [recordTransition_length]
  split <;> omega

theorem recordTransition_getLast? (h : List StateTransition) (t : StateTransition) :
    (recordTransition h t).getLast? = some t := by
  simp only [recordTransition]
  split
  · rename_i hlen
    have h500 : 500 ≤ h.length := by
      simp only [List.length_append, List.length_singleton] at hlen; omega
    have hsplit : h ++ [t] = h.take 500 ++ (h.drop 500 ++ [t]) := by
      rw [← List.append_assoc, List.take_append_drop]
    rw [hsplit, List.drop_left' (by simp [List.length_take]; omega)]
    exact List.getLast?_concat _
  · exact List.getLast?_concat _

theorem recordTransition_suffix (h : List StateTransition) (t : StateTransition)
    (pre : List StateTransition) (hs : h <:+ pre) :
    recordTransition h t <:+ pre ++ [t] := by
  have happ : h ++ [t] <:+ pre ++ [t] := by
    obtain ⟨p, hp⟩ := hs
    exact ⟨p, by rw [← List.append_assoc, hp]⟩
  simp only [recordTransition]
  split
  · exact (List.drop_suffix _ _).trans happ
  · exact happ

theorem foldl_recordTransition_suffix (ts : List StateTransition) :
    ∀ (h pre : List StateTransition), h <:+ pre →
      ts.foldl recordTransition h <:+ pre ++ ts := by
  induction ts with
  | nil => intro h pre hs; simpa using hs
  | cons t rest ih =>
    intro h pre hs
    have step := recordTransition_suffix h t pre hs
    have := ih (recordTransition h t) (pre ++ [t]) step
    simpa [List.append_assoc] using this

theorem foldl_recordTransition_le_1000 (ts : List StateTransition) :
    ∀ h : List StateTransition, h.length ≤ 1000 →
      (ts.foldl recordTransition h).length ≤ 1000 := by
  induction ts with
  | nil => intro h hh; simpa using hh
  | cons t rest ih =>
    intro h hh
    exact ih _ (recordTransition_le_1000 h t hh)

/-! ## Helper lemmas about the FSM detection and debounce logic -/

theorem detectBest_constrained_eq (stateConfigs : List StateConfig)
    (screenMode : ScreenMode) (currentState : String)
    (measure : RoiDetectionParams → Side → Option ℚ) (cfg : StateConfig)
    (hfind : stateConfigs.find? (fun sc => sc.id == currentState) = some cfg) :
    detectBestCandidateState stateConfigs screenMode currentState measure =
      stateConfigs.foldl
        (fun best sc =>
          if ¬ (currentState :: cfg.transitionsTo).contains sc.id then best
          else
            match combinedConfidence sc screenMode measure with
            | none => best
            | some c =>
              if best.confidence < c then { state := sc.id, confidence := c } else best)
        { state := "", confidence := 0 } := by
  unfold detectBestCandidateState
  rw [hfind]
  simp only [Option.isSome_some, true_and]

theorem detect_foldl_mem_aux (l : List StateConfig) (screenMode : ScreenMode)
    (measure : RoiDetectionParams → Side → Option ℚ) (cands : List String) :
    ∀ acc : DetectionResult, (acc.state = "" ∨ acc.state ∈ cands) →
      ((l.foldl
          (fun best sc =>
            if ¬ cands.contains sc.id then best
            else
              match combinedConfidence sc screenMode measure with
              | none => best
              | some c =>
                if best.confidence < c then { state := sc.id, confidence := c } else best)
          acc).state = "" ∨
        (l.foldl
          (fun best sc =>
            if ¬ cands.contains sc.id then best
            else
              match combinedConfidence sc screenMode measure with
              | none => best
              | some c =>
                if best.confidence < c then { state := sc.id, confidence := c } else best)
          acc).state ∈ cands) := by
  induction l with
  | nil => intro acc h; exact h
  | cons sc rest ih =>
    intro acc h
    rw [List.foldl_cons]
    apply ih
    by_cases hc : cands.contains sc.id = true
    · rw [if_neg (not_not_intro hc)]
      cases hcomb : combinedConfidence sc screenMode measure with
      | none => exact h
      | some c =>
        dsimp only
        split
        · right
          exact List.mem_of_elem_eq_true hc
        · exact h
    · rw [if_pos hc]
      exact h

theorem detectBest_state_mem (stateConfigs : List StateConfig) (screenMode : ScreenMode)
    (currentState : String) (measure : RoiDetectionParams → Side → Option ℚ)
    (cfg : StateConfig)
    (hfind : stateConfigs.find? (fun sc => sc.id == currentState) = some cfg) :
    (detectBestCandidateState stateConfigs screenMode currentState measure).state = "" ∨
    (detectBestCandidateState stateConfigs screenMode currentState measure).state ∈
      currentState :: cfg.transitionsTo := by
  rw [detectBest_constrained_eq stateConfigs screenMode currentState measure cfg hfind]
  exact detect_foldl_mem_aux stateConfigs screenMode measure
    (currentState :: cfg.transitionsTo) { state := "", confidence := 0 } (Or.inl rfl)

theorem cd_update_shape (fsm : ConfigDrivenFSM) (m : String → Option ℚ) (now : Nat) :
    (fsm.update m now).1.profile = fsm.profile ∧
    ((fsm.update m now).2 = none → (fsm.update m now).1.currentState = fsm.currentState) ∧
    ((fsm.update m now).1.pendingFrameCount = 0 ∨
      ((fsm.update m now).2 = none ∧
       cdWins fsm.profile.states m (fsm.update m now).1.pendingState ∧
       (fsm.update m now).1.pendingState ≠ fsm.currentState ∧
       ((fsm.update m now).1.pendingFrameCount = 1 ∨
        ((fsm.update m now).1.pendingFrameCount = fsm.pendingFrameCount + 1 ∧
         (fsm.update m now).1.pendingState = fsm.pendingState)))) ∧
    (∀ t, (fsm.update m now).2 = some t →
       t.from_ = fsm.currentState ∧ t.to_ ≠ fsm.currentState ∧
       cdWins fsm.profile.states m t.to_ ∧
       (fsm.update m now).1.currentState = t.to_ ∧
       ((t.to_ = fsm.pendingState ∧
           fsm.profile.debounceFrames ≤ ((fsm.pendingFrameCount : Int) + 1)) ∨
        (t.to_ ≠ fsm.pendingState ∧ fsm.profile.debounceFrames ≤ (1 : Int)))) := by
  unfold ConfigDrivenFSM.update
  dsimp only
  by_cases c1 : (evaluateRules fsm.profile.states m).state = "" ∨
      (evaluateRules fsm.profile.states m).confidence < 1/100
  · rw [if_pos c1]
    exact ⟨rfl, fun _ => rfl, Or.inl rfl, fun t ht => Option.noConfusion ht⟩
  · rw [if_neg c1]
    push_neg at c1
    obtain ⟨hne, hconf⟩ := c1
    by_cases c2 : (evaluateRules fsm.profile.states m).state ≠ fsm.currentState
    · rw [if_pos c2]
      by_cases cp : (evaluateRules fsm.profile.states m).state = fsm.pendingState
      · rw [if_pos cp]
        dsimp only
        by_cases c3 : fsm.profile.debounceFrames ≤ ((fsm.pendingFrameCount + 1 : ℕ) : Int) ∧
            fsm.pendingState ≠ fsm.currentState
        · rw [if_pos c3]
          cases hfind : fsm.profile.states.find? (fun sd => sd.id == fsm.currentState) with
          | none =>
            dsimp only
            rw [if_pos rfl]
            refine ⟨rfl, fun hc => Option.noConfusion hc, Or.inl rfl, ?_⟩
            intro t ht
            have ht2 := Option.some.inj ht
            subst ht2
            refine ⟨rfl, by rw [← cp] at c3 ⊢; exact c2, ?_, rfl, ?_⟩
            · exact ⟨cp.symm ▸ rfl, by rw [← cp]; exact hne, hconf⟩
            · left
              refine ⟨rfl, ?_⟩
              exact_mod_cast c3.1
          | some sdef =>
            dsimp only
            by_cases hall : (sdef.transitionsTo.isEmpty ||
                sdef.transitionsTo.contains fsm.pendingState) = true
            · rw [if_pos hall]
              refine ⟨rfl, fun hc => Option.noConfusion hc, Or.inl rfl, ?_⟩
              intro t ht
              have ht2 := Option.some.inj ht
              subst ht2
              refine ⟨rfl, by rw [← cp] at c3 ⊢; exact c2, ?_, rfl, ?_⟩
              · exact ⟨cp.symm ▸ rfl, by rw [← cp]; exact hne, hconf⟩
              · left
                refine ⟨rfl, ?_⟩
                exact_mod_cast c3.1
            · rw [if_neg hall]
              refine ⟨rfl, fun _ => rfl, ?_, fun t ht => Option.noConfusion ht⟩
              right
              refine ⟨rfl, ⟨cp ▸ rfl, by rw [← cp]; exact hne, hconf⟩,
                by rw [← cp]; exact c2, Or.inr ⟨rfl, rfl⟩⟩
        · rw [if_neg c3]
          refine ⟨rfl, fun _ => rfl, ?_, fun t ht => Option.noConfusion ht⟩
          right
          refine ⟨rfl, ⟨cp ▸ rfl, by rw [← cp]; exact hne, hconf⟩,
            by rw [← cp]; exact c2, Or.inr ⟨rfl, rfl⟩⟩
      · rw [if_neg cp]
        dsimp only
        by_cases c3 : fsm.profile.debounceFrames ≤ ((1 : ℕ) : Int) ∧
            (evaluateRules fsm.profile.states m).state ≠ fsm.currentState
        · rw [if_pos c3]
          cases hfind : fsm.profile.states.find? (fun sd => sd.id == fsm.currentState) with
          | none =>
            dsimp only
            rw [if_pos rfl]
            refine ⟨rfl, fun hc => Option.noConfusion hc, Or.inl rfl, ?_⟩
            intro t ht
            have ht2 := Option.some.inj ht
            subst ht2
            refine ⟨rfl, c2, ⟨rfl, hne, hconf⟩, rfl, ?_⟩
            right
            refine ⟨cp, ?_⟩
            exact_mod_cast c3.1
          | some sdef =>
            dsimp only
            by_cases hall : (sdef.transitionsTo.isEmpty ||
                sdef.transitionsTo.contains (evaluateRules fsm.profile.states m).state) = true
            · rw [if_pos hall]
              refine ⟨rfl, fun hc => Option.noConfusion hc, Or.inl rfl, ?_⟩
              intro t ht
              have ht2 := Option.some.inj ht
              subst ht2
              refine ⟨rfl, c2, ⟨rfl, hne, hconf⟩, rfl, ?_⟩
              right
              refine ⟨cp, ?_⟩
              exact_mod_cast c3.1
            · rw [if_neg hall]
              refine ⟨rfl, fun _ => rfl, ?_, fun t ht => Option.noConfusion ht⟩
              right
              exact ⟨rfl, ⟨rfl, hne, hconf⟩, c2, Or.inl rfl⟩
        · rw [if_neg c3]
          refine ⟨rfl, fun _ => rfl, ?_, fun t ht => Option.noConfusion ht⟩
          right
          exact ⟨rfl, ⟨rfl, hne, hconf⟩, c2, Or.inl rfl⟩
    · rw [if_neg c2]
      exact ⟨rfl, fun _ => rfl, Or.inl rfl, fun t ht => Option.noConfusion ht⟩

theorem cx_update_shape (fsm : CXXStateTreeFSM)
    (m : RoiDetectionParams → Side → Option ℚ) (now : Nat) :
    (fsm.update m now).1.stateConfigs = fsm.stateConfigs ∧
    (fsm.update m now).1.screenMode = fsm.screenMode ∧
    (fsm.update m now).1.debounceFrames = fsm.debounceFrames ∧
    ((fsm.update m now).2 = none →
      (fsm.update m now).1.currentState = fsm.currentState ∧
      (fsm.update m now).1.treeState = fsm.treeState) ∧
    ((fsm.update m now).1.pendingFrameCount = 0 ∨
      ((fsm.update m now).2 = none ∧
       cxWins fsm.stateConfigs fsm.screenMode fsm.currentState m
         (fsm.update m now).1.pendingState ∧
       (fsm.update m now).1.pendingState ≠ fsm.currentState ∧
       ((fsm.update m now).1.pendingFrameCount = 1 ∨
        ((fsm.update m now).1.pendingFrameCount = fsm.pendingFrameCount + 1 ∧
         (fsm.update m now).1.pendingState = fsm.pendingState)))) ∧
    (∀ t, (fsm.update m now).2 = some t →
       t.from_ = fsm.currentState ∧ t.to_ ≠ fsm.currentState ∧
       cxWins fsm.stateConfigs fsm.screenMode fsm.currentState m t.to_ ∧
       (fsm.update m now).1.currentState = t.to_ ∧
       (fsm.update m now).1.treeState = t.to_ ∧
       (∃ cfg, fsm.stateConfigs.find? (fun sc => sc.id == fsm.treeState) = some cfg ∧
          t.to_ ∈ cfg.transitionsTo) ∧
       ((t.to_ = fsm.pendingState ∧
           fsm.debounceFrames ≤ ((fsm.pendingFrameCount : Int) + 1)) ∨
        (t.to_ ≠ fsm.pendingState ∧ fsm.debounceFrames ≤ (1 : Int)))) := by
  unfold CXXStateTreeFSM.update
  dsimp only
  by_cases c1 : (detectBestCandidateState fsm.stateConfigs fsm.screenMode
      fsm.currentState m).state = "" ∨
      (detectBestCandidateState fsm.stateConfigs fsm.screenMode
        fsm.currentState m).confidence < 1/100
  · rw [if_pos c1]
    exact ⟨rfl, rfl, rfl, fun _ => ⟨rfl, rfl⟩, Or.inl rfl, fun t ht => Option.noConfusion ht⟩
  · rw [if_neg c1]
    push_neg at c1
    obtain ⟨hne, hconf⟩ := c1
    by_cases c2 : (detectBestCandidateState fsm.stateConfigs fsm.screenMode
        fsm.currentState m).state = fsm.currentState
    · rw [if_pos c2]
      exact ⟨rfl, rfl, rfl, fun _ => ⟨rfl, rfl⟩, Or.inl rfl, fun t ht => Option.noConfusion ht⟩
    · rw [if_neg c2]
      by_cases cp : (detectBestCandidateState fsm.stateConfigs fsm.screenMode
          fsm.currentState m).state = fsm.pendingState
      · rw [if_pos cp]
        dsimp only
        by_cases c3 : ((fsm.pendingFrameCount + 1 : ℕ) : Int) < fsm.debounceFrames ∨
            fsm.pendingState = fsm.currentState
        · rw [if_pos c3]
          refine ⟨rfl, rfl, rfl, fun _ => ⟨rfl, rfl⟩, ?_, fun t ht => Option.noConfusion ht⟩
          right
          exact ⟨rfl, ⟨cp ▸ rfl, by rw [← cp]; exact hne, hconf⟩,
            by rw [← cp]; exact c2, Or.inr ⟨rfl, rfl⟩⟩
        · rw [if_neg c3]
          by_cases hA : (match fsm.stateConfigs.find?
                (fun sc => sc.id == fsm.currentState) with
              | some config =>
                config.transitionsTo.isEmpty ||
                  config.transitionsTo.contains fsm.pendingState
              | none => true) = true
          · rw [if_pos hA]
            by_cases hT : (match fsm.stateConfigs.find?
                  (fun sc => sc.id == fsm.treeState) with
                | some config => config.transitionsTo.contains fsm.pendingState
                | none => false) = true
            · rw [if_pos hT]
              refine ⟨rfl, rfl, rfl, fun hc => Option.noConfusion hc, Or.inl rfl, ?_⟩
              intro t ht
              have ht2 := Option.some.inj ht
              subst ht2
              have hlegal : ∃ cfg, fsm.stateConfigs.find?
                  (fun sc => sc.id == fsm.treeState) = some cfg ∧
                  fsm.pendingState ∈ cfg.transitionsTo := by
                cases hft : fsm.stateConfigs.find? (fun sc => sc.id == fsm.treeState) with
                | none => rw [hft] at hT; exact absurd hT (by simp)
                | some config =>
                  rw [hft] at hT
                  exact ⟨config, rfl, List.mem_of_elem_eq_true hT⟩
              refine ⟨rfl, by rw [← cp] at c3 ⊢; exact c2,
                ⟨cp.symm ▸ rfl, by rw [← cp]; exact hne, hconf⟩, rfl, rfl, hlegal, ?_⟩
              left
              refine ⟨rfl, ?_⟩
              push_neg at c3
              exact_mod_cast c3.1
            · rw [if_neg hT]
              exact ⟨rfl, rfl, rfl, fun _ => ⟨rfl, rfl⟩, Or.inl rfl,
                fun t ht => Option.noConfusion ht⟩
          · rw [if_neg hA]
            exact ⟨rfl, rfl, rfl, fun _ => ⟨rfl, rfl⟩, Or.inl rfl,
              fun t ht => Option.noConfusion ht⟩
      · rw [if_neg cp]
        dsimp only
        by_cases c3 : ((1 : ℕ) : Int) < fsm.debounceFrames ∨
            (detectBestCandidateState fsm.stateConfigs fsm.screenMode
              fsm.currentState m).state = fsm.currentState
        · rw [if_pos c3]
          refine ⟨rfl, rfl, rfl, fun _ => ⟨rfl, rfl⟩, ?_, fun t ht => Option.noConfusion ht⟩
          right
          exact ⟨rfl, ⟨rfl, hne, hconf⟩, c2, Or.inl rfl⟩
        · rw [if_neg c3]
          by_cases hA : (match fsm.stateConfigs.find?
                (fun sc => sc.id == fsm.currentState) with
              | some config =>
                config.transitionsTo.isEmpty ||
                  config.transitionsTo.contains
                    (detectBestCandidateState fsm.stateConfigs fsm.screenMode
                      fsm.currentState m).state
              | none => true) = true
          · rw [if_pos hA]
            by_cases hT : (match fsm.stateConfigs.find?
                  (fun sc => sc.id == fsm.treeState) with
                | some config => config.transitionsTo.contains
                    (detectBestCandidateState fsm.stateConfigs fsm.screenMode
                      fsm.currentState m).state
                | none => false) = true
            · rw [if_pos hT]
              refine ⟨rfl, rfl, rfl, fun hc => Option.noConfusion hc, Or.inl rfl, ?_⟩
              intro t ht
              have ht2 := Option.some.inj ht
              subst ht2
              have hlegal : ∃ cfg, fsm.stateConfigs.find?
                  (fun sc => sc.id == fsm.treeState) = some cfg ∧
                  (detectBestCandidateState fsm.stateConfigs fsm.screenMode
                    fsm.currentState m).state ∈ cfg.transitionsTo := by
                cases hft : fsm.stateConfigs.find? (fun sc => sc.id == fsm.treeState) with
                | none => rw [hft] at hT; exact absurd hT (by simp)
                | some config =>
                  rw [hft] at hT
                  exact ⟨config, rfl, List.mem_of_elem_eq_true hT⟩
              refine ⟨rfl, c2, ⟨rfl, hne, hconf⟩, rfl, rfl, hlegal, ?_⟩
              right
              refine ⟨cp, ?_⟩
              push_neg at c3
              exact_mod_cast c3.1
            · rw [if_neg hT]
              exact ⟨rfl, rfl, rfl, fun _ => ⟨rfl, rfl⟩, Or.inl rfl,
                fun t ht => Option.noConfusion ht⟩
          · rw [if_neg hA]
            exact ⟨rfl, rfl, rfl, fun _ => ⟨rfl, rfl⟩, Or.inl rfl,
              fun t ht => Option.noConfusion ht⟩

theorem cd_run_append (l1 l2 : List CdTick) :
    ∀ fsm : ConfigDrivenFSM,
      fsm.run (l1 ++ l2) =
        (((fsm.run l1).1.run l2).1, (fsm.run l1).2 ++ ((fsm.run l1).1.run l2).2) := by
  induction l1 with
  | nil => intro fsm; simp [ConfigDrivenFSM.run]
  | cons tk rest ih =>
    intro fsm
    simp only [List.cons_append, ConfigDrivenFSM.run, ih]
    simp only [Prod.mk.injEq, List.append_eq]
    rw [ih]
    simp

theorem cd_update_count_le (fsm : ConfigDrivenFSM) (m : String → Option ℚ) (now : Nat) :
    (fsm.update m now).1.pendingFrameCount ≤ fsm.pendingFrameCount + 1 := by
  rcases (cd_update_shape fsm m now).2.2.1 with h | ⟨_, _, _, h | ⟨h, _⟩⟩ <;> omega

theorem cd_update_commit_bound (fsm : ConfigDrivenFSM) (m : String → Option ℚ)
    (now : Nat) (t : StateTransition) (h : (fsm.update m now).2 = some t) :
    fsm.profile.debounceFrames ≤ ((fsm.pendingFrameCount : Int) + 1) := by
  rcases ((cd_update_shape fsm m now).2.2.2 t h).2.2.2.2 with ⟨_, hb⟩ | ⟨_, hb⟩
  · exact hb
  · omega

theorem cd_run_short_aux (ticks : List CdTick) :
    ∀ fsm : ConfigDrivenFSM,
      ((fsm.pendingFrameCount : Int) + ticks.length < fsm.profile.debounceFrames) →
      (∀ o ∈ (fsm.run ticks).2, o = none) ∧
      (fsm.run ticks).1.currentState = fsm.currentState := by
  induction ticks with
  | nil => intro fsm _; exact ⟨by simp [ConfigDrivenFSM.run], rfl⟩
  | cons tk rest ih =>
    intro fsm hshort
    simp only [List.length_cons] at hshort
    have hout : (fsm.update tk.measure tk.now).2 = none := by
      cases ho : (fsm.update tk.measure tk.now).2 with
      | none => rfl
      | some t =>
        have := cd_update_commit_bound fsm tk.measure tk.now t ho
        omega
    have hshape := cd_update_shape fsm tk.measure tk.now
    have hcur := hshape.2.1 hout
    have hcnt := cd_update_count_le fsm tk.measure tk.now
    have hrest := ih (fsm.update tk.measure tk.now).1 (by
      rw [hshape.1]
      have : ((fsm.update tk.measure tk.now).1.pendingFrameCount : Int) ≤
          (fsm.pendingFrameCount : Int) + 1 := by exact_mod_cast hcnt
      omega)
    constructor
    · intro o ho
      simp only [ConfigDrivenFSM.run] at ho
      rcases List.mem_cons.mp ho with rfl | hmem
      · exact hout
      · exact hrest.1 o hmem
    · show ((fsm.update tk.measure tk.now).1.run rest).1.currentState = fsm.currentState
      rw [hrest.2, hcur]

theorem cd_run_profile (ticks : List CdTick) :
    ∀ fsm : ConfigDrivenFSM, (fsm.run ticks).1.profile = fsm.profile := by
  induction ticks with
  | nil => intro fsm; rfl
  | cons tk rest ih =>
    intro fsm
    show ((fsm.update tk.measure tk.now).1.run rest).1.profile = fsm.profile
    rw [ih, (cd_update_shape fsm tk.measure tk.now).1]

theorem cd_run_trailing (ticks : List CdTick) (fsm : ConfigDrivenFSM)
    (h0 : fsm.pendingFrameCount = 0) :
    ∃ pre suf, ticks = pre ++ suf ∧
      suf.length = (fsm.run ticks).1.pendingFrameCount ∧
      ∀ tk ∈ suf, cdWins fsm.profile.states tk.measure (fsm.run ticks).1.pendingState := by
  induction ticks using List.reverseRecOn with
  | nil =>
    refine ⟨[], [], by simp, ?_, by simp⟩
    simp only [ConfigDrivenFSM.run]
    simp [h0]
  | append_singleton l tk ih =>
    obtain ⟨pre, suf, hsplit, hlen, hwins⟩ := ih
    have hfin : (fsm.run (l ++ [tk])).1 =
        ((fsm.run l).1.update tk.measure tk.now).1 := by
      rw [cd_run_append l [tk] fsm]
      simp [ConfigDrivenFSM.run]
    have hprof := cd_run_profile l fsm
    have hshape := cd_update_shape (fsm.run l).1 tk.measure tk.now
    rw [hfin]
    rcases hshape.2.2.1 with hz | ⟨_, hwin, _, hcase⟩
    · exact ⟨l ++ [tk], [], by simp, by simp [hz], by simp⟩
    · rw [hprof] at hwin
      rcases hcase with h1 | ⟨hc1, hpend⟩
      · refine ⟨l, [tk], rfl, by simp [h1], ?_⟩
        intro q hq
        rcases List.mem_singleton.mp hq with rfl
        exact hwin
      · refine ⟨pre, suf ++ [tk], by rw [hsplit, List.append_assoc], by simp [hc1, hlen], ?_⟩
        intro q hq
        rcases List.mem_append.mp hq with hq1 | hq2
        · rw [hpend]
          exact hwins q hq1
        · rcases List.mem_singleton.mp hq2 with rfl
          exact hwin

theorem cd_run_only_after (fsm : ConfigDrivenFSM) (h0 : fsm.pendingFrameCount = 0)
    (pre : List CdTick) (tk : CdTick) (t : StateTransition)
    (hcommit : ((fsm.run pre).1.update tk.measure tk.now).2 = some t) :
    ∃ preQ sufQ, pre = preQ ++ sufQ ∧
      fsm.profile.debounceFrames ≤ ((sufQ.length : Int) + 1) ∧
      ∀ q ∈ sufQ ++ [tk], cdWins fsm.profile.states q.measure t.to_ := by
  have hprof := cd_run_profile pre fsm
  have hshape := cd_update_shape (fsm.run pre).1 tk.measure tk.now
  have hcfacts := hshape.2.2.2 t hcommit
  have hwin : cdWins fsm.profile.states tk.measure t.to_ := by
    have := hcfacts.2.2.1
    rwa [hprof] at this
  rcases hcfacts.2.2.2.2 with ⟨hto, hN⟩ | ⟨_, hN⟩
  · obtain ⟨preQ, sufQ, hsplit, hlen, hwins⟩ := cd_run_trailing pre fsm h0
    refine ⟨preQ, sufQ, hsplit, ?_, ?_⟩
    · rw [hprof] at hN
      rw [hlen]
      exact hN
    · intro q hq
      rcases List.mem_append.mp hq with hq1 | hq2
      · rw [← hto] at hwins
        exact hwins q hq1
      · rcases List.mem_singleton.mp hq2 with rfl
        exact hwin
  · refine ⟨pre, [], by simp, ?_, ?_⟩
    · rw [hprof] at hN
      simpa using hN
    · intro q hq
      rcases List.mem_singleton.mp (by simpa using hq) with rfl
      exact hwin

theorem cx_run_append (l1 l2 : List CxTick) :
    ∀ fsm : CXXStateTreeFSM,
      fsm.run (l1 ++ l2) =
        (((fsm.run l1).1.run l2).1, (fsm.run l1).2 ++ ((fsm.run l1).1.run l2).2) := by
  induction l1 with
  | nil => intro fsm; simp [CXXStateTreeFSM.run]
  | cons tk rest ih =>
    intro fsm
    simp only [List.cons_append, CXXStateTreeFSM.run, ih]
    simp only [Prod.mk.injEq, List.append_eq]
    rw [ih]
    simp

theorem cx_update_count_le (fsm : CXXStateTreeFSM)
    (m : RoiDetectionParams → Side → Option ℚ) (now : Nat) :
    (fsm.update m now).1.pendingFrameCount ≤ fsm.pendingFrameCount + 1 := by
  rcases (cx_update_shape fsm m now).2.2.2.2.1 with h | ⟨_, _, _, h | ⟨h, _⟩⟩ <;> omega

theorem cx_update_commit_bound (fsm : CXXStateTreeFSM)
    (m : RoiDetectionParams → Side → Option ℚ) (now : Nat) (t : StateTransition)
    (h : (fsm.update m now).2 = some t) :
    fsm.debounceFrames ≤ ((fsm.pendingFrameCount : Int) + 1) := by
  rcases ((cx_update_shape fsm m now).2.2.2.2.2 t h).2.2.2.2.2.2 with ⟨_, hb⟩ | ⟨_, hb⟩
  · exact hb
  · omega

theorem cx_run_short_aux (ticks : List CxTick) :
    ∀ fsm : CXXStateTreeFSM,
      ((fsm.pendingFrameCount : Int) + ticks.length < fsm.debounceFrames) →
      (∀ o ∈ (fsm.run ticks).2, o = none) ∧
      (fsm.run ticks).1.currentState = fsm.currentState := by
  induction ticks with
  | nil => intro fsm _; exact ⟨by simp [CXXStateTreeFSM.run], rfl⟩
  | cons tk rest ih =>
    intro fsm hshort
    simp only [List.length_cons] at hshort
    have hout : (fsm.update tk.measure tk.now).2 = none := by
      cases ho : (fsm.update tk.measure tk.now).2 with
      | none => rfl
      | some t =>
        have := cx_update_commit_bound fsm tk.measure tk.now t ho
        omega
    have hshape := cx_update_shape fsm tk.measure tk.now
    have hcur := (hshape.2.2.2.1 hout).1
    have hcnt := cx_update_count_le fsm tk.measure tk.now
    have hrest := ih (fsm.update tk.measure tk.now).1 (by
      rw [hshape.2.2.1]
      have : ((fsm.update tk.measure tk.now).1.pendingFrameCount : Int) ≤
          (fsm.pendingFrameCount : Int) + 1 := by exact_mod_cast hcnt
      omega)
    constructor
    · intro o ho
      simp only [CXXStateTreeFSM.run] at ho
      rcases List.mem_cons.mp ho with rfl | hmem
      · exact hout
      · exact hrest.1 o hmem
    · show ((fsm.update tk.measure tk.now).1.run rest).1.currentState = fsm.currentState
      rw [hrest.2, hcur]

theorem cx_run_consts (ticks : List CxTick) :
    ∀ fsm : CXXStateTreeFSM,
      (fsm.run ticks).1.stateConfigs = fsm.stateConfigs ∧
      (fsm.run ticks).1.screenMode = fsm.screenMode ∧
      (fsm.run ticks).1.debounceFrames = fsm.debounceFrames := by
  induction ticks with
  | nil => intro fsm; exact ⟨rfl, rfl, rfl⟩
  | cons tk rest ih =>
    intro fsm
    have hshape := cx_update_shape fsm tk.measure tk.now
    have h := ih (fsm.update tk.measure tk.now).1
    refine ⟨?_, ?_, ?_⟩
    · show ((fsm.update tk.measure tk.now).1.run rest).1.stateConfigs = fsm.stateConfigs
      rw [h.1, hshape.1]
    · show ((fsm.update tk.measure tk.now).1.run rest).1.screenMode = fsm.screenMode
      rw [h.2.1, hshape.2.1]
    · show ((fsm.update tk.measure tk.now).1.run rest).1.debounceFrames = fsm.debounceFrames
      rw [h.2.2, hshape.2.2.1]

theorem cx_run_trailing (ticks : List CxTick) (fsm : CXXStateTreeFSM)
    (h0 : fsm.pendingFrameCount = 0) :
    ∃ pre suf, ticks = pre ++ suf ∧
      suf.length = (fsm.run ticks).1.pendingFrameCount ∧
      ∀ tk ∈ suf, cxWins fsm.stateConfigs fsm.screenMode (fsm.run ticks).1.currentState
        tk.measure (fsm.run ticks).1.pendingState := by
  induction ticks using List.reverseRecOn with
  | nil =>
    refine ⟨[], [], by simp, ?_, by simp⟩
    simp only [CXXStateTreeFSM.run]
    simp [h0]
  | append_singleton l tk ih =>
    obtain ⟨pre, suf, hsplit, hlen, hwins⟩ := ih
    have hfin : (fsm.run (l ++ [tk])).1 =
        ((fsm.run l).1.update tk.measure tk.now).1 := by
      rw [cx_run_append l [tk] fsm]
      simp [CXXStateTreeFSM.run]
    have hconsts := cx_run_consts l fsm
    have hshape := cx_update_shape (fsm.run l).1 tk.measure tk.now
    rw [hfin]
    rcases hshape.2.2.2.2.1 with hz | ⟨hnone, hwin, _, hcase⟩
    · exact ⟨l ++ [tk], [], by simp, by simp [hz], by simp⟩
    · rw [hconsts.1, hconsts.2.1] at hwin
      have hcur : ((fsm.run l).1.update tk.measure tk.now).1.currentState =
          (fsm.run l).1.currentState := (hshape.2.2.2.1 hnone).1
      rcases hcase with h1 | ⟨hc1, hpend⟩
      · refine ⟨l, [tk], rfl, by simp [h1], ?_⟩
        intro q hq
        rcases List.mem_singleton.mp hq with rfl
        rw [hcur]
        exact hwin
      · refine ⟨pre, suf ++ [tk], by rw [hsplit, List.append_assoc], by simp [hc1, hlen], ?_⟩
        intro q hq
        rw [hcur]
        rcases List.mem_append.mp hq with hq1 | hq2
        · rw [hpend]
          exact hwins q hq1
        · rcases List.mem_singleton.mp hq2 with rfl
          exact hwin

theorem cx_run_only_after (fsm : CXXStateTreeFSM) (h0 : fsm.pendingFrameCount = 0)
    (pre : List CxTick) (tk : CxTick) (t : StateTransition)
    (hcommit : ((fsm.run pre).1.update tk.measure tk.now).2 = some t) :
    ∃ preQ sufQ, pre = preQ ++ sufQ ∧
      fsm.debounceFrames ≤ ((sufQ.length : Int) + 1) ∧
      ∀ q ∈ sufQ ++ [tk],
        cxWins fsm.stateConfigs fsm.screenMode t.from_ q.measure t.to_ := by
  have hconsts := cx_run_consts pre fsm
  have hshape := cx_update_shape (fsm.run pre).1 tk.measure tk.now
  have hcfacts := hshape.2.2.2.2.2 t hcommit
  have hfrom : t.from_ = (fsm.run pre).1.currentState := hcfacts.1
  have hwin : cxWins fsm.stateConfigs fsm.screenMode t.from_ tk.measure t.to_ := by
    have := hcfacts.2.2.1
    rwa [hconsts.1, hconsts.2.1, ← hfrom] at this
  rcases hcfacts.2.2.2.2.2.2 with ⟨hto, hN⟩ | ⟨_, hN⟩
  · obtain ⟨preQ, sufQ, hsplit, hlen, hwins⟩ := cx_run_trailing pre fsm h0
    refine ⟨preQ, sufQ, hsplit, ?_, ?_⟩
    · rw [hconsts.2.2] at hN
      rw [hlen]
      exact hN
    · intro q hq
      rcases List.mem_append.mp hq with hq1 | hq2
      · rw [← hto, ← hfrom] at hwins
        exact hwins q hq1
      · rcases List.mem_singleton.mp hq2 with rfl
        exact hwin
  · refine ⟨pre, [], by simp, ?_, ?_⟩
    · rw [hconsts.2.2] at hN
      simpa using hN
    · intro q hq
      rcases List.mem_singleton.mp (by simpa using hq) with rfl
      exact hwin

theorem cx_update_empty_stasis (fsm : CXXStateTreeFSM)
    (m : RoiDetectionParams → Side → Option ℚ) (now : Nat) (cfg : StateConfig)
    (hfind : fsm.stateConfigs.find? (fun sc => sc.id == fsm.currentState) = some cfg)
    (hempty : cfg.transitionsTo = []) :
    (fsm.update m now).2 = none := by
  cases ho : (fsm.update m now).2 with
  | none => rfl
  | some t =>
    have hc := (cx_update_shape fsm m now).2.2.2.2.2 t ho
    have hmem := detectBest_state_mem fsm.stateConfigs fsm.screenMode
      fsm.currentState m cfg hfind
    rcases hmem with he | hm
    · rw [hc.2.2.1.1] at he
      exact absurd he hc.2.2.1.2.1
    · rw [hempty, hc.2.2.1.1] at hm
      exact absurd (List.mem_singleton.mp hm) hc.2.1

theorem cx_run_empty_stasis (ticks : List CxTick) :
    ∀ (fsm : CXXStateTreeFSM) (cfg : StateConfig),
      fsm.stateConfigs.find? (fun sc => sc.id == fsm.currentState) = some cfg →
      cfg.transitionsTo = [] →
      (fsm.run ticks).1.currentState = fsm.currentState ∧
      ∀ o ∈ (fsm.run ticks).2, o = none := by
  induction ticks with
  | nil => intro fsm cfg _ _; exact ⟨rfl, by simp [CXXStateTreeFSM.run]⟩
  | cons tk rest ih =>
    intro fsm cfg hfind hempty
    have hout := cx_update_empty_stasis fsm tk.measure tk.now cfg hfind hempty
    have hshape := cx_update_shape fsm tk.measure tk.now
    have hcur := (hshape.2.2.2.1 hout).1
    have hrest := ih (fsm.update tk.measure tk.now).1 cfg
      (by rw [hshape.1, hcur]; exact hfind) hempty
    constructor
    · show ((fsm.update tk.measure tk.now).1.run rest).1.currentState = fsm.currentState
      rw [hrest.1, hcur]
    · intro o ho
      simp only [CXXStateTreeFSM.run] at ho
      rcases List.mem_cons.mp ho with rfl | hmem
      · exact hout
      · exact hrest.2 o hmem

theorem cd_update_reset_on_current (fsm : ConfigDrivenFSM) (m : String → Option ℚ)
    (now : Nat) (hw : cdWins fsm.profile.states m fsm.currentState) :
    (fsm.update m now).1.pendingFrameCount = 0 ∧
    (fsm.update m now).1.pendingState = "" ∧ (fsm.update m now).2 = none := by
  obtain ⟨hst, hne, hconf⟩ := hw
  unfold ConfigDrivenFSM.update
  dsimp only
  rw [if_neg (by rw [hst]; push_neg; exact ⟨hne, hconf⟩),
    if_neg (by rw [hst]; exact not_not_intro rfl)]
  exact ⟨rfl, rfl, rfl⟩

theorem cd_update_switch_candidate (fsm : ConfigDrivenFSM) (m : String → Option ℚ)
    (now : Nat) (s : String) (hw : cdWins fsm.profile.states m s)
    (hcur : s ≠ fsm.currentState) (hpend : s ≠ fsm.pendingState)
    (hN : (1 : Int) < fsm.profile.debounceFrames) :
    (fsm.update m now).1.pendingState = s ∧
    (fsm.update m now).1.pendingFrameCount = 1 ∧ (fsm.update m now).2 = none := by
  obtain ⟨hst, hne, hconf⟩ := hw
  subst hst
  unfold ConfigDrivenFSM.update
  dsimp only
  rw [if_neg (by push_neg; exact ⟨hne, hconf⟩), if_pos hcur, if_neg hpend]
  dsimp only
  rw [if_neg (by push_neg; intro h1; omega)]
  exact ⟨rfl, rfl, rfl⟩

theorem cx_update_reset_on_current (fsm : CXXStateTreeFSM)
    (m : RoiDetectionParams → Side → Option ℚ) (now : Nat)
    (hw : cxWins fsm.stateConfigs fsm.screenMode fsm.currentState m fsm.currentState) :
    (fsm.update m now).1.pendingFrameCount = 0 ∧
    (fsm.update m now).1.pendingState = "" ∧ (fsm.update m now).2 = none := by
  obtain ⟨hst, hne, hconf⟩ := hw
  unfold CXXStateTreeFSM.update
  dsimp only
  rw [if_neg (by rw [hst]; push_neg; exact ⟨hne, hconf⟩), if_pos hst]
  exact ⟨rfl, rfl, rfl⟩

theorem cx_update_switch_candidate (fsm : CXXStateTreeFSM)
    (m : RoiDetectionParams → Side → Option ℚ) (now : Nat) (s : String)
    (hw : cxWins fsm.stateConfigs fsm.screenMode fsm.currentState m s)
    (hcur : s ≠ fsm.currentState) (hpend : s ≠ fsm.pendingState)
    (hN : (1 : Int) < fsm.debounceFrames) :
    (fsm.update m now).1.pendingState = s ∧
    (fsm.update m now).1.pendingFrameCount = 1 ∧ (fsm.update m now).2 = none := by
  obtain ⟨hst, hne, hconf⟩ := hw
  subst hst
  unfold CXXStateTreeFSM.update
  dsimp only
  rw [if_neg (by push_neg; exact ⟨hne, hconf⟩), if_neg hcur, if_neg hpend]
  dsimp only
  rw [if_pos (by left; exact_mod_cast hN)]
  exact ⟨rfl, rfl, rfl⟩

theorem cd_update_legal (fsm : ConfigDrivenFSM) (m : String → Option ℚ) (now : Nat)
    (t : StateTransition) (sdef : StateDefinition)
    (hfind : fsm.profile.states.find? (fun sd => sd.id == fsm.currentState) = some sdef)
    (hnonempty : sdef.transitionsTo ≠ [])
    (hcommit : (fsm.update m now).2 = some t) :
    t.to_ ∈ sdef.transitionsTo := by
  unfold ConfigDrivenFSM.update at hcommit
  dsimp only at hcommit
  by_cases c1 : (evaluateRules fsm.profile.states m).state = "" ∨
      (evaluateRules fsm.profile.states m).confidence < 1/100
  · rw [if_pos c1] at hcommit; exact absurd hcommit (by simp)
  · rw [if_neg c1] at hcommit
    by_cases c2 : (evaluateRules fsm.profile.states m).state ≠ fsm.currentState
    · rw [if_pos c2] at hcommit
      by_cases cp : (evaluateRules fsm.profile.states m).state = fsm.pendingState
      · rw [if_pos cp] at hcommit
        dsimp only at hcommit
        by_cases c3 : fsm.profile.debounceFrames ≤ ((fsm.pendingFrameCount + 1 : ℕ) : Int) ∧
            fsm.pendingState ≠ fsm.currentState
        · rw [if_pos c3] at hcommit
          rw [hfind] at hcommit
          dsimp only at hcommit
          by_cases hall : (sdef.transitionsTo.isEmpty ||
              sdef.transitionsTo.contains fsm.pendingState) = true
          · rw [if_pos hall] at hcommit
            have ht2 := Option.some.inj hcommit
            subst ht2
            rcases Bool.or_eq_true_iff.mp hall with he | hco
            · exact absurd (by simpa using he) hnonempty
            · exact List.mem_of_elem_eq_true hco
          · rw [if_neg hall] at hcommit; exact absurd hcommit (by simp)
        · rw [if_neg c3] at hcommit; exact absurd hcommit (by simp)
      · rw [if_neg cp] at hcommit
        dsimp only at hcommit
        by_cases c3 : fsm.profile.debounceFrames ≤ ((1 : ℕ) : Int) ∧
            (evaluateRules fsm.profile.states m).state ≠ fsm.currentState
        · rw [if_pos c3] at hcommit
          rw [hfind] at hcommit
          dsimp only at hcommit
          by_cases hall : (sdef.transitionsTo.isEmpty ||
              sdef.transitionsTo.contains (evaluateRules fsm.profile.states m).state) = true
          · rw [if_pos hall] at hcommit
            have ht2 := Option.some.inj hcommit
            subst ht2
            rcases Bool.or_eq_true_iff.mp hall with he | hco
            · exact absurd (by simpa using he) hnonempty
            · exact List.mem_of_elem_eq_true hco
          · rw [if_neg hall] at hcommit; exact absurd hcommit (by simp)
        · rw [if_neg c3] at hcommit; exact absurd hcommit (by simp)
    · rw [if_neg c2] at hcommit; exact absurd hcommit (by simp)

/-! ## Helper lemmas about the strategy step functions -/

theorem stateChangeReset_of_ne (st : SoftResetStrategy) (cs : String)
    (h : cs ≠ st.lastState) :
    stateChangeReset st cs =
      { st with lastState := cs, actionIndex := 0, waitingForShinyCheck := false,
                consecutiveStuckCount := 0 } := by
  simp [stateChangeReset, h]

theorem stateChangeReset_of_eq (st : SoftResetStrategy) (cs : String)
    (h : cs = st.lastState) : stateChangeReset st cs = st := by
  simp [stateChangeReset, h]

theorem stateChangeReset_config (st : SoftResetStrategy) (cs : String) :
    (stateChangeReset st cs).config = st.config := by
  unfold stateChangeReset; split <;> rfl

theorem stateChangeReset_stats (st : SoftResetStrategy) (cs : String) :
    (stateChangeReset st cs).stats = st.stats := by
  unfold stateChangeReset; split <;> rfl

theorem stateChangeReset_lastState (st : SoftResetStrategy) (cs : String) :
    (stateChangeReset st cs).lastState = cs := by
  unfold stateChangeReset; split
  · rfl
  · rename_i h
    simp only [ne_eq, Decidable.not_not] at h
    exact h.symm

theorem stateChangeReset_stuckCount (st : SoftResetStrategy) (cs : String) :
    (stateChangeReset st cs).consecutiveStuckCount =
      if cs ≠ st.lastState then 0 else st.consecutiveStuckCount := by
  unfold stateChangeReset; split <;> simp_all

theorem tickButtonPhase_fields (st : SoftResetStrategy) (cs : String)
    (acts : List InputAction) (now : Nat) :
    (tickButtonPhase st cs acts now).1.config = st.config ∧
    (tickButtonPhase st cs acts now).1.stats = st.stats ∧
    (tickButtonPhase st cs acts now).1.lastState = st.lastState ∧
    (tickButtonPhase st cs acts now).1.consecutiveStuckCount = st.consecutiveStuckCount ∧
    (tickButtonPhase st cs acts now).2.decision.action ≠ HuntAction.Abort := by
  unfold tickButtonPhase
  split
  · dsimp only
    split
    · split
      · exact ⟨rfl, rfl, rfl, rfl, by simp⟩
      · exact ⟨rfl, rfl, rfl, rfl, by simp [waitDecision]⟩
    · exact ⟨rfl, rfl, rfl, rfl, by simp [waitDecision]⟩
  · exact ⟨rfl, rfl, rfl, rfl, by simp [waitDecision]⟩

theorem tickActions_fields (st : SoftResetStrategy) (cs : String) (tis now : Nat) :
    (tickActions st cs tis now).1.config = st.config ∧
    (tickActions st cs tis now).1.stats = st.stats ∧
    (tickActions st cs tis now).1.lastState = st.lastState ∧
    (tickActions st cs tis now).1.consecutiveStuckCount = st.consecutiveStuckCount ∧
    (tickActions st cs tis now).2.decision.action ≠ HuntAction.Abort := by
  unfold tickActions
  split
  · exact ⟨rfl, rfl, rfl, rfl, by simp [waitDecision]⟩
  · split
    · exact ⟨rfl, rfl, rfl, rfl, by simp [waitDecision]⟩
    · split
      · dsimp only
        split
        · split
          · exact ⟨rfl, rfl, rfl, rfl, by simp [waitDecision]⟩
          · exact tickButtonPhase_fields _ cs _ now
        · exact tickButtonPhase_fields st cs _ now
      · exact tickButtonPhase_fields st cs _ now

theorem tick_fields (st : SoftResetStrategy) (cs : String) (tis : Nat)
    (sr : Option ShinyResult) (now : Nat) :
    (st.tick cs tis sr now).1.config = st.config ∧
    (st.tick cs tis sr now).1.lastState = cs ∧
    (st.tick cs tis sr now).1.consecutiveStuckCount =
      (if cs ≠ st.lastState then 0 else st.consecutiveStuckCount) ∧
    (st.tick cs tis sr now).1.stats.watchdogRecoveries = st.stats.watchdogRecoveries ∧
    (st.tick cs tis sr now).2.decision.action ≠ HuntAction.Abort := by
  have hconf := stateChangeReset_config st cs
  have hstat := stateChangeReset_stats st cs
  have hlast := stateChangeReset_lastState st cs
  have hstuck := stateChangeReset_stuckCount st cs
  unfold SoftResetStrategy.tick
  dsimp only
  split
  · split
    · exact ⟨hconf, hlast, hstuck, by rw [hstat], by simp [waitDecision]⟩
    · split
      · split
        · exact ⟨hconf, hlast, hstuck, by rw [hstat], by simp⟩
        · refine ⟨?_, ?_, ?_, ?_, (tickActions_fields _ cs tis now).2.2.2.2⟩
          · rw [(tickActions_fields _ cs tis now).1]; exact hconf
          · rw [(tickActions_fields _ cs tis now).2.2.1]; exact hlast
          · rw [(tickActions_fields _ cs tis now).2.2.2.1]; exact hstuck
          · rw [(tickActions_fields _ cs tis now).2.1]; dsimp only; rw [hstat]
        · exact ⟨hconf, hlast, hstuck, by rw [hstat], by simp⟩
      · exact ⟨hconf, hlast, hstuck, by rw [hstat], by simp⟩
  · have h := tickActions_fields (stateChangeReset st cs) cs tis now
    exact ⟨by rw [h.1, hconf], by rw [h.2.2.1, hlast], by rw [h.2.2.2.1, hstuck],
      by rw [h.2.1, hstat], h.2.2.2.2⟩

/-! ## Helper lemmas about the wire encoding -/

theorem and_255_eq_mod (w : Nat) : w &&& 0xFF = w % 256 := by
  have h := Nat.and_pow_two_sub_one_eq_mod w 8
  norm_num at h
  exact h

theorem writeLe32_eq_le32BytesSpec (v : Nat) : writeLe32 v = le32BytesSpec v := by
  simp only [writeLe32, le32BytesSpec, and_255_eq_mod, Nat.shiftRight_eq_div_pow]

theorem lor_shiftLeft_eq_add (a b k : Nat) (h : b < 2 ^ k) :
    (a <<< k) ||| b = a * 2 ^ k + b := by
  rw [Nat.shiftLeft_eq, Nat.mul_comm a (2 ^ k), ← Nat.mul_add_lt_is_or h, Nat.mul_comm]

theorem hid_mask (m : Nat) (hm : m < 4096) :
    0x00000FFF &&& (m ^^^ 0xFFFFFFFF) = 0xFFF - m := by
  have h3 : (0xFFF : Nat) - m = 2 ^ 12 - (m + 1) := by omega
  apply Nat.eq_of_testBit_eq
  intro i
  rw [h3, Nat.testBit_two_pow_sub_succ (by omega)]
  rw [show (0x00000FFF : Nat) = 2 ^ 12 - 1 by norm_num,
      show (0xFFFFFFFF : Nat) = 2 ^ 32 - 1 by norm_num,
      Nat.testBit_and, Nat.testBit_xor, Nat.testBit_two_pow_sub_one,
      Nat.testBit_two_pow_sub_one]
  by_cases hi : i < 12
  · have h32 : i < 32 := by omega
    simp [hi, h32]
  · simp [hi]

theorem toNat_emod32_and_fff (v : Int) :
    ((v % (2 ^ 32 : Int)).toNat) &&& 0xFFF = (v % 4096).toNat := by
  have h1 := Nat.and_pow_two_sub_one_eq_mod ((v % (2 ^ 32 : Int)).toNat) 12
  have h2 : ((2 : Int) ^ 32) = 4294967296 := by norm_num
  norm_num at h1
  rw [h2, h1]
  omega

theorem toNat_emod32_and_ff (v : Int) :
    ((v % (2 ^ 32 : Int)).toNat) &&& 0xFF = (v % 256).toNat := by
  have h1 := Nat.and_pow_two_sub_one_eq_mod ((v % (2 ^ 32 : Int)).toNat) 8
  have h2 : ((2 : Int) ^ 32) = 4294967296 := by norm_num
  norm_num at h1
  rw [h2, h1]
  omega

theorem circle_word_eq (cy cx : Nat) (hx : cx < 4096) :
    (cy <<< 12) ||| cx = cy * 4096 + cx := by
  have := lor_shiftLeft_eq_add cy cx 12 (by norm_num; omega)
  norm_num at this
  exact this

theorem cstick_word_eq (csy csx : Nat) (hx : csx < 256) :
    (csy <<< 24) ||| (csx <<< 16) ||| 0x0081 =
      csy * 16777216 + csx * 65536 + 0x81 := by
  have h1 : (csy <<< 24) ||| (csx <<< 16) = csy * 2 ^ 24 + csx * 2 ^ 16 := by
    rw [lor_shiftLeft_eq_add csy (csx <<< 16) 24
        (by rw [Nat.shiftLeft_eq]; norm_num; omega), Nat.shiftLeft_eq]
  rw [h1]
  have h2 : csy * 2 ^ 24 + csx * 2 ^ 16 = 2 ^ 16 * (csy * 2 ^ 8 + csx) := by ring
  rw [h2, ← Nat.mul_add_lt_is_or (by norm_num) (csy * 2 ^ 8 + csx)]
  ring

theorem runEvents_stuck_aux (events : List StrategyEvent) :
    ∀ st : SoftResetStrategy,
      (∀ e ∈ events, ∀ (cs : String) (tis : Nat) (sr : Option ShinyResult) (now : Nat),
          e = StrategyEvent.tickEvent cs tis sr now → cs = st.lastState) →
      (st.runEvents events).1.stats.watchdogRecoveries =
          st.stats.watchdogRecoveries + countStuck events ∧
      (st.runEvents events).1.consecutiveStuckCount =
          st.consecutiveStuckCount + countStuck events ∧
      (st.runEvents events).1.lastState = st.lastState ∧
      (((st.consecutiveStuckCount : Int) + (countStuck events : Int) ≤
          st.config.onStuck.maxRetries) →
        ∀ d ∈ (st.runEvents events).2, d.decision.action ≠ HuntAction.Abort) := by
  induction events with
  | nil =>
    intro st _
    refine ⟨by simp [SoftResetStrategy.runEvents, countStuck], by
      simp [SoftResetStrategy.runEvents, countStuck], rfl, ?_⟩
    intro _ d hd
    simp [SoftResetStrategy.runEvents] at hd
  | cons e rest ih =>
    intro st h
    cases e with
    | tickEvent cs tis sr now =>
      have hcs : cs = st.lastState := h _ (List.mem_cons_self _ _) cs tis sr now rfl
      have tf := tick_fields st cs tis sr now
      have hcount : (st.tick cs tis sr now).1.consecutiveStuckCount =
          st.consecutiveStuckCount := by
        rw [tf.2.2.1, if_neg (by simp [hcs])]
      have hlast : (st.tick cs tis sr now).1.lastState = st.lastState := by
        rw [tf.2.1, hcs]
      have hrest := ih (st.tick cs tis sr now).1 (by
        intro e2 he2 cs2 tis2 sr2 now2 heq
        rw [hlast]
        exact h e2 (List.mem_cons_of_mem _ he2) cs2 tis2 sr2 now2 heq)
      simp only [SoftResetStrategy.runEvents, countStuck]
      refine ⟨?_, ?_, ?_, ?_⟩
      · rw [hrest.1, tf.2.2.2.1]
      · rw [hrest.2.1, hcount]
      · rw [hrest.2.2.1, hlast]
      · intro hbound d hd
        rcases List.mem_cons.mp hd with rfl | hd2
        · exact tf.2.2.2.2
        · refine hrest.2.2.2 ?_ d hd2
          rw [hcount, tf.1]
          exact hbound
    | stuckEvent =>
      have hstep1 : st.onStuck.1.consecutiveStuckCount = st.consecutiveStuckCount + 1 := by
        unfold SoftResetStrategy.onStuck
        dsimp only
        split <;> rfl
      have hstepw : st.onStuck.1.stats.watchdogRecoveries =
          st.stats.watchdogRecoveries + 1 := by
        unfold SoftResetStrategy.onStuck
        dsimp only
        split <;> rfl
      have hstepl : st.onStuck.1.lastState = st.lastState := by
        unfold SoftResetStrategy.onStuck
        dsimp only
        split <;> rfl
      have hstepc : st.onStuck.1.config = st.config := by
        unfold SoftResetStrategy.onStuck
        dsimp only
        split <;> rfl
      have hrest := ih st.onStuck.1 (by
        intro e2 he2 cs2 tis2 sr2 now2 heq
        rw [hstepl]
        exact h e2 (List.mem_cons_of_mem _ he2) cs2 tis2 sr2 now2 heq)
      simp only [SoftResetStrategy.runEvents, countStuck]
      refine ⟨?_, ?_, ?_, ?_⟩
      · rw [hrest.1, hstepw]; omega
      · rw [hrest.2.1, hstep1]; omega
      · rw [hrest.2.2.1, hstepl]
      · intro hbound d hd
        rcases List.mem_cons.mp hd with rfl | hd2
        · unfold SoftResetStrategy.onStuck
          dsimp only
          rw [if_neg (by push_cast; push_cast at hbound; omega)]
          simp
        · refine hrest.2.2.2 ?_ d hd2
          rw [hstep1, hstepc]
          push_cast
          push_cast at hbound
          omega

/-! ## Claim theorems -/

/-- C10: `ForceState(s)` unconditionally makes `s` the current state — for
every state `s`, including states outside the current state's reachable set
and the current state itself — appends a `{from := previous current state,
to := s}` entry to the transition history, restarts the dwell timer, and
resets the debounce bookkeeping, with no debounce or reachability check. -/
theorem C10_force_state (fsm : ConfigDrivenFSM) (s : String) (now : Nat) :
    (fsm.forceState s now).currentState = s ∧
    (fsm.forceState s now).history =
      recordTransition fsm.history
        { from_ := fsm.currentState, to_ := s, timestamp := now } ∧
    (fsm.forceState s now).history.getLast? =
      some { from_ := fsm.currentState, to_ := s, timestamp := now } ∧
    (fsm.forceState s now).stateEnteredAt = now ∧
    (fsm.forceState s now).pendingState = s ∧
    (fsm.forceState s now).pendingFrameCount = 0 := by
  refine ⟨rfl, rfl, ?_, rfl, rfl, rfl⟩
  exact recordTransition_getLast? _ _

/-- C1 counterexample: in `ConfigDrivenFSM`, a current state whose
`transitionsTo` list is empty does not candidate only itself — the empty
list disables the legality check entirely, so a single tick (debounce 1)
scoring the unreachable state "C" highest commits a transition out of "B"
even though "C" is not in "B"'s reachable set. -/
theorem C1_counterexample :
    ((ConfigDrivenFSM.init
        { initialState := "B",
          states :=
            [{ id := "A",
               detection := { method := "pixel_ratio", roi := "full", threshold := 1 },
               transitionsTo := ["B"] },
             { id := "B",
               detection := { method := "pixel_ratio", roi := "full", threshold := 1 },
               transitionsTo := [] },
             { id := "C",
               detection := { method := "pixel_ratio", roi := "full", threshold := 1 },
               transitionsTo := [] }],
          debounceFrames := 1 } 0).update
        (fun s => if s = "C" then some 1 else none) 5).2 =
      some { from_ := "B", to_ := "C", timestamp := 5 } ∧
    ((ConfigDrivenFSM.init
        { initialState := "B",
          states :=
            [{ id := "A",
               detection := { method := "pixel_ratio", roi := "full", threshold := 1 },
               transitionsTo := ["B"] },
             { id := "B",
               detection := { method := "pixel_ratio", roi := "full", threshold := 1 },
               transitionsTo := [] },
             { id := "C",
               detection := { method := "pixel_ratio", roi := "full", threshold := 1 },
               transitionsTo := [] }],
          debounceFrames := 1 } 0).update
        (fun s => if s = "C" then some 1 else none) 5).1.currentState = "C" ∧
    "C" ∉ ({ id := "B",
             detection := { method := "pixel_ratio", roi := "full", threshold := 1 },
             transitionsTo := [] } : StateDefinition).transitionsTo := by
  have heval : evaluateRules
      [({ id := "A",
          detection := { method := "pixel_ratio", roi := "full", threshold := 1 },
          transitionsTo := ["B"] } : StateDefinition),
       { id := "B",
         detection := { method := "pixel_ratio", roi := "full", threshold := 1 },
         transitionsTo := [] },
       { id := "C",
         detection := { method := "pixel_ratio", roi := "full", threshold := 1 },
         transitionsTo := [] }]
      (fun s => if s = "C" then some 1 else none) =
      { state := "C", confidence := 1 } := by
    simp [evaluateRules]
  refine ⟨?_, ?_, by simp⟩ <;>
    · simp only [ConfigDrivenFSM.update, ConfigDrivenFSM.init, heval]
      rw [if_neg (by push_neg; exact ⟨by decide, by norm_num⟩)]
      rfl

/-- C1 (amended): the claim as stated holds for `CXXStateTreeFSM`: when the
current state has a config, detection candidates are the current state and
its `transitionsTo` targets (so a state with an empty reachable set can
candidate only itself), every committed transition's target lies in the
current state's `transitionsTo` list, and from a state with an empty
`transitionsTo` list arbitrarily many ticks never change the current state.
For `ConfigDrivenFSM` the reachability guarantee holds only when the current
state is found in the profile with a nonempty `transitionsTo` list — an
empty list is treated as unconstrained rather than as "no transitions". -/
theorem C1_reachability_amended :
    (∀ (stateConfigs : List StateConfig) (screenMode : ScreenMode) (currentState : String)
       (measure : RoiDetectionParams → Side → Option ℚ) (cfg : StateConfig),
       stateConfigs.find? (fun sc => sc.id == currentState) = some cfg →
       (detectBestCandidateState stateConfigs screenMode currentState measure).state = "" ∨
       (detectBestCandidateState stateConfigs screenMode currentState measure).state ∈
         currentState :: cfg.transitionsTo) ∧
    (∀ (fsm : CXXStateTreeFSM) (m : RoiDetectionParams → Side → Option ℚ) (now : Nat)
       (t : StateTransition), fsm.treeState = fsm.currentState →
       (fsm.update m now).2 = some t →
       t.from_ = fsm.currentState ∧
       ∃ cfg, fsm.stateConfigs.find? (fun sc => sc.id == fsm.currentState) = some cfg ∧
         t.to_ ∈ cfg.transitionsTo) ∧
    (∀ (fsm : CXXStateTreeFSM) (ticks : List CxTick) (cfg : StateConfig),
       fsm.stateConfigs.find? (fun sc => sc.id == fsm.currentState) = some cfg →
       cfg.transitionsTo = [] →
       (fsm.run ticks).1.currentState = fsm.currentState ∧
       ∀ o ∈ (fsm.run ticks).2, o = none) ∧
    (∀ (fsm : ConfigDrivenFSM) (m : String → Option ℚ) (now : Nat) (t : StateTransition)
       (sdef : StateDefinition),
       fsm.profile.states.find? (fun sd => sd.id == fsm.currentState) = some sdef →
       sdef.transitionsTo ≠ [] →
       (fsm.update m now).2 = some t → t.to_ ∈ sdef.transitionsTo) := by
  refine ⟨detectBest_state_mem, ?_,
    fun fsm ticks cfg hf he => cx_run_empty_stasis ticks fsm cfg hf he,
    fun fsm m now t sdef hf hne hc => cd_update_legal fsm m now t sdef hf hne hc⟩
  intro fsm m now t hsync hcommit
  have hc := (cx_update_shape fsm m now).2.2.2.2.2 t hcommit
  obtain ⟨cfg, hft, hmem⟩ := hc.2.2.2.2.2.1
  rw [hsync] at hft
  exact ⟨hc.1, cfg, hft, hmem⟩

/-- Witness for C1's amended theorem: a `CXXStateTreeFSM` sitting in a state
with no outgoing transitions ignores two strongly-matching ticks. -/
theorem C1_witness :
    ((CXXStateTreeFSM.build "A" 2 ScreenMode.Dual
        [{ id := "A", transitionsTo := [],
           detectionParameters :=
             { top := some { roi := "r", method := "color_histogram", threshold := 1 },
               bottom := none } },
         { id := "B", transitionsTo := ["A"],
           detectionParameters :=
             { top := some { roi := "r", method := "color_histogram", threshold := 1 },
               bottom := none } }] 0).run
        [{ measure := fun _ _ => some 1, now := 1 },
         { measure := fun _ _ => some 1, now := 2 }]).1.currentState = "A" ∧
    ∀ o ∈ ((CXXStateTreeFSM.build "A" 2 ScreenMode.Dual
        [{ id := "A", transitionsTo := [],
           detectionParameters :=
             { top := some { roi := "r", method := "color_histogram", threshold := 1 },
               bottom := none } },
         { id := "B", transitionsTo := ["A"],
           detectionParameters :=
             { top := some { roi := "r", method := "color_histogram", threshold := 1 },
               bottom := none } }] 0).run
        [{ measure := fun _ _ => some 1, now := 1 },
         { measure := fun _ _ => some 1, now := 2 }]).2, o = none :=
  C1_reachability_amended.2.2.1 _ _
    { id := "A", transitionsTo := [],
      detectionParameters :=
        { top := some { roi := "r", method := "color_histogram", threshold := 1 },
          bottom := none } } rfl rfl

/-- C2: for debounce threshold N, `Update` commits a transition to a new
state only after N consecutive calls whose winning candidate (meeting its
threshold, beating every other candidate and passing the 0.01 confidence
gate) is that same state: any commit is preceded by at least N−1
consecutive winning ticks immediately before the committing tick, itself a
win for the target; from a clean debounce state, any run shorter than N
ticks never commits and never changes the current state; a tick won by the
current state clears the pending candidate, and a tick won by a fresh
different candidate restarts the pending count at one.  This holds for both
`ConfigDrivenFSM` and `CXXStateTreeFSM`. -/
theorem C2_debounce :
    (∀ fsm : ConfigDrivenFSM, fsm.pendingFrameCount = 0 →
      ∀ (pre : List CdTick) (tk : CdTick) (t : StateTransition),
        ((fsm.run pre).1.update tk.measure tk.now).2 = some t →
        ∃ preQ sufQ, pre = preQ ++ sufQ ∧
          fsm.profile.debounceFrames ≤ ((sufQ.length : Int) + 1) ∧
          ∀ q ∈ sufQ ++ [tk], cdWins fsm.profile.states q.measure t.to_) ∧
    (∀ fsm : ConfigDrivenFSM, fsm.pendingFrameCount = 0 →
      ∀ ticks : List CdTick, (ticks.length : Int) < fsm.profile.debounceFrames →
        (∀ o ∈ (fsm.run ticks).2, o = none) ∧
        (fsm.run ticks).1.currentState = fsm.currentState) ∧
    (∀ (fsm : ConfigDrivenFSM) (m : String → Option ℚ) (now : Nat),
      cdWins fsm.profile.states m fsm.currentState →
      (fsm.update m now).1.pendingFrameCount = 0 ∧
      (fsm.update m now).1.pendingState = "" ∧ (fsm.update m now).2 = none) ∧
    (∀ (fsm : ConfigDrivenFSM) (m : String → Option ℚ) (now : Nat) (s : String),
      cdWins fsm.profile.states m s → s ≠ fsm.currentState → s ≠ fsm.pendingState →
      (1 : Int) < fsm.profile.debounceFrames →
      (fsm.update m now).1.pendingState = s ∧
      (fsm.update m now).1.pendingFrameCount = 1 ∧ (fsm.update m now).2 = none) ∧
    (∀ fsm : CXXStateTreeFSM, fsm.pendingFrameCount = 0 →
      ∀ (pre : List CxTick) (tk : CxTick) (t : StateTransition),
        ((fsm.run pre).1.update tk.measure tk.now).2 = some t →
        ∃ preQ sufQ, pre = preQ ++ sufQ ∧
          fsm.debounceFrames ≤ ((sufQ.length : Int) + 1) ∧
          ∀ q ∈ sufQ ++ [tk],
            cxWins fsm.stateConfigs fsm.screenMode t.from_ q.measure t.to_) ∧
    (∀ fsm : CXXStateTreeFSM, fsm.pendingFrameCount = 0 →
      ∀ ticks : List CxTick, (ticks.length : Int) < fsm.debounceFrames →
        (∀ o ∈ (fsm.run ticks).2, o = none) ∧
        (fsm.run ticks).1.currentState = fsm.currentState) ∧
    (∀ (fsm : CXXStateTreeFSM) (m : RoiDetectionParams → Side → Option ℚ) (now : Nat),
      cxWins fsm.stateConfigs fsm.screenMode fsm.currentState m fsm.currentState →
      (fsm.update m now).1.pendingFrameCount = 0 ∧
      (fsm.update m now).1.pendingState = "" ∧ (fsm.update m now).2 = none) ∧
    (∀ (fsm : CXXStateTreeFSM) (m : RoiDetectionParams → Side → Option ℚ) (now : Nat)
       (s : String),
      cxWins fsm.stateConfigs fsm.screenMode fsm.currentState m s →
      s ≠ fsm.currentState → s ≠ fsm.pendingState → (1 : Int) < fsm.debounceFrames →
      (fsm.update m now).1.pendingState = s ∧
      (fsm.update m now).1.pendingFrameCount = 1 ∧ (fsm.update m now).2 = none) := by
  refine ⟨fun fsm h0 pre tk t hc => cd_run_only_after fsm h0 pre tk t hc,
    ?_,
    fun fsm m now hw => cd_update_reset_on_current fsm m now hw,
    fun fsm m now s hw h1 h2 h3 => cd_update_switch_candidate fsm m now s hw h1 h2 h3,
    fun fsm h0 pre tk t hc => cx_run_only_after fsm h0 pre tk t hc,
    ?_,
    fun fsm m now hw => cx_update_reset_on_current fsm m now hw,
    fun fsm m now s hw h1 h2 h3 => cx_update_switch_candidate fsm m now s hw h1 h2 h3⟩
  · intro fsm h0 ticks hlen
    exact cd_run_short_aux ticks fsm (by rw [h0]; simpa using hlen)
  · intro fsm h0 ticks hlen
    exact cx_run_short_aux ticks fsm (by rw [h0]; simpa using hlen)

/-- Witness for C2's short-run clause: with debounce 3, two winning ticks at
a fresh `ConfigDrivenFSM` never commit and never change the state. -/
theorem C2_witness :
    (∀ o ∈ ((ConfigDrivenFSM.init
        { initialState := "A",
          states :=
            [{ id := "A",
               detection := { method := "pixel_ratio", roi := "full", threshold := 1 },
               transitionsTo := ["B"] },
             { id := "B",
               detection := { method := "pixel_ratio", roi := "full", threshold := 1 },
               transitionsTo := [] }],
          debounceFrames := 3 } 0).run
        [{ measure := fun s => if s = "B" then some 1 else none, now := 1 },
         { measure := fun s => if s = "B" then some 1 else none, now := 2 }]).2, o = none) ∧
    ((ConfigDrivenFSM.init
        { initialState := "A",
          states :=
            [{ id := "A",
               detection := { method := "pixel_ratio", roi := "full", threshold := 1 },
               transitionsTo := ["B"] },
             { id := "B",
               detection := { method := "pixel_ratio", roi := "full", threshold := 1 },
               transitionsTo := [] }],
          debounceFrames := 3 } 0).run
        [{ measure := fun s => if s = "B" then some 1 else none, now := 1 },
         { measure := fun s => if s = "B" then some 1 else none, now := 2 }]).1.currentState =
      "A" :=
  C2_debounce.2.1 _ rfl _ (by decide)

/-- C3: after every recorded transition the history holds at most 1000
entries and is a contiguous, order-preserving suffix of the list of all
transitions ever recorded; the moment an append pushes the length above
1000, the oldest 500 entries are dropped. -/
theorem C3_history_bound :
    (∀ ts : List StateTransition,
        (recordAll ts).length ≤ 1000 ∧ recordAll ts <:+ ts) ∧
    (∀ (h : List StateTransition) (t : StateTransition),
        1000 < (h ++ [t]).length → recordTransition h t = (h ++ [t]).drop 500) := by
  constructor
  · intro ts
    refine ⟨foldl_recordTransition_le_1000 ts [] (by simp), ?_⟩
    simpa using foldl_recordTransition_suffix ts [] [] ⟨[], rfl⟩
  · intro h t hlen
    simp only [recordTransition]
    rw [if_pos]
    simpa using hlen

/-- Witness for C3's pruning clause at a history of exactly 1000 entries. -/
theorem C3_witness :
    1000 <
        ((List.replicate 1000
              ({ from_ := "a", to_ := "b", timestamp := 0 } : StateTransition)) ++
            [({ from_ := "b", to_ := "c", timestamp := 1 } : StateTransition)]).length ∧
      recordTransition
          (List.replicate 1000 ({ from_ := "a", to_ := "b", timestamp := 0 } : StateTransition))
          { from_ := "b", to_ := "c", timestamp := 1 } =
        ((List.replicate 1000
              ({ from_ := "a", to_ := "b", timestamp := 0 } : StateTransition)) ++
            [({ from_ := "b", to_ := "c", timestamp := 1 } : StateTransition)]).drop 500 := by
  have hlen : 1000 <
      ((List.replicate 1000
            ({ from_ := "a", to_ := "b", timestamp := 0 } : StateTransition)) ++
          [({ from_ := "b", to_ := "c", timestamp := 1 } : StateTransition)]).length := by
    rw [List.length_append, List.length_replicate, List.length_singleton]
    omega
  exact ⟨hlen, C3_history_bound.2 _ _ hlen⟩

/-- C4: once `Detect` has locked calibration (which happens exactly when, on
a not-yet-calibrated call, the rolling window reaches at least
`calibrationFrames` entries with a success rate of at least 80% and the
frame has both screens present), every subsequent `Detect` call — for any
input whatsoever, including an empty detection result — returns exactly the
locked result with the detector state untouched (no smoothing, split-point
or window update), until `Reset` clears the lock. -/
theorem C4_calibration_lock {C S : Type} (d : ScreenDetector C S) :
    (d.calibrated = true →
      (∀ (r : ScreenDetectionResult C) (s1 : S) (split1 : ℚ),
          d.detect r s1 split1 = (d, d.calibratedResult)) ∧
      (∀ inputs : List (DetectInput C S),
          d.detectRun inputs = (d, inputs.map fun _ => d.calibratedResult))) ∧
    (∀ (r : ScreenDetectionResult C) (s1 : S) (split1 : ℚ),
        ((d.detect r s1 split1).1.calibrated = true ↔
          (d.calibrated = true ∨
            (d.config.calibrationFrames ≤
                ((calibrationWindowAfter d.calibrationWindow
                    (r.topScreen.isSome && r.bottomScreen.isSome)).length : Int) ∧
             kCalibrationSuccessThreshold ≤
               ((calibrationWindowAfter d.calibrationWindow
                    (r.topScreen.isSome && r.bottomScreen.isSome)).count true : ℚ) /
                 ((calibrationWindowAfter d.calibrationWindow
                    (r.topScreen.isSome && r.bottomScreen.isSome)).length : ℚ) ∧
             (r.topScreen.isSome && r.bottomScreen.isSome) = true)))) ∧
    (∀ s0 : S, (d.reset s0).calibrated = false) := by
  have hfrozen : d.calibrated = true →
      ∀ (r : ScreenDetectionResult C) (s1 : S) (split1 : ℚ),
        d.detect r s1 split1 = (d, d.calibratedResult) := by
    intro hc r s1 split1
    simp [ScreenDetector.detect, hc]
  refine ⟨fun hc => ⟨hfrozen hc, ?_⟩, ?_, fun s0 => rfl⟩
  · intro inputs
    induction inputs with
    | nil => rfl
    | cons i rest ih =>
      simp [ScreenDetector.detectRun, hfrozen hc i.r i.s1 i.split1, ih]
  · intro r s1 split1
    by_cases hc : d.calibrated
    · simp [ScreenDetector.detect, hc]
    · by_cases hboth : (r.topScreen.isSome && r.bottomScreen.isSome) = true
      · simp only [hboth]
        by_cases hlen : d.config.calibrationFrames ≤
            ((calibrationWindowAfter d.calibrationWindow true).length : Int)
        · by_cases hrate : kCalibrationSuccessThreshold ≤
              ((calibrationWindowAfter d.calibrationWindow true).count true : ℚ) /
                ((calibrationWindowAfter d.calibrationWindow true).length : ℚ)
          · simp [ScreenDetector.detect, hc, hboth, hlen, hrate]
          · simp [ScreenDetector.detect, hc, hboth, hlen, hrate]
        · simp [ScreenDetector.detect, hc, hboth, hlen]
      · rw [Bool.not_eq_true] at hboth
        simp [ScreenDetector.detect, hc, hboth]

/-- Witness for C4 at a concrete locked detector fed an empty frame result. -/
theorem C4_witness :
    ({ config := {}, smoothState := (), splitPointY := 0, calibrated := true,
       calibratedResult := { topScreen := some (), bottomScreen := some () },
       calibrationWindow := [] } : ScreenDetector Unit Unit).detect {} () 0 =
      ({ config := {}, smoothState := (), splitPointY := 0, calibrated := true,
         calibratedResult := { topScreen := some (), bottomScreen := some () },
         calibrationWindow := [] },
       { topScreen := some (), bottomScreen := some () }) :=
  ((C4_calibration_lock _).1 rfl).1 {} () 0

/-- C5 counterexample: in the shiny-check state, once the check delay has
elapsed, a tick with an `Uncertain` verdict returns a `CheckShiny` action —
an explicit re-check request — and not the `Wait` the claim asserts. -/
theorem C5_counterexample :
    (({ config := { shinyCheckState := "encounter", shinyCheckDelayMs := 1500 } } :
          SoftResetStrategy).tick "encounter" 1500
        (some { verdict := ShinyVerdict.Uncertain }) 0).2.decision.action =
      HuntAction.CheckShiny ∧
    HuntAction.CheckShiny ≠ HuntAction.Wait := by
  constructor
  · rfl
  · simp

/-- C5 (amended): in the configured anomaly-check state, once at least the
configured check delay has elapsed since state entry, a tick whose supplied
verdict is `Uncertain` or absent returns a `CheckShiny` action — an explicit
re-check request is emitted on every such tick — and no statistics counter
changes on such a tick. -/
theorem C5_uncertain_recheck (st : SoftResetStrategy) (cs : String) (tis : Nat)
    (sr : Option ShinyResult) (now : Nat)
    (hcs : cs = st.config.shinyCheckState)
    (hdelay : st.config.shinyCheckDelayMs ≤ (tis : Int))
    (hsr : sr = none ∨ ∃ r, sr = some r ∧ r.verdict = ShinyVerdict.Uncertain) :
    (st.tick cs tis sr now).2.decision.action = HuntAction.CheckShiny ∧
    (st.tick cs tis sr now).1.stats = st.stats := by
  have hcs2 : cs = (stateChangeReset st cs).config.shinyCheckState := by
    rw [stateChangeReset_config]; exact hcs
  have hd2 : ¬ ((tis : Int) < (stateChangeReset st cs).config.shinyCheckDelayMs) := by
    rw [stateChangeReset_config]; exact not_lt.mpr hdelay
  unfold SoftResetStrategy.tick
  dsimp only
  rw [if_pos hcs2, if_neg hd2]
  rcases hsr with rfl | ⟨r, rfl, hv⟩
  · exact ⟨rfl, stateChangeReset_stats st cs⟩
  · obtain ⟨v, cf, mth, dt⟩ := r
    simp only at hv
    subst hv
    exact ⟨rfl, stateChangeReset_stats st cs⟩

/-- Witness for C5's amended theorem at the counterexample input. -/
theorem C5_witness :
    (({ config := { shinyCheckState := "encounter", shinyCheckDelayMs := 1500 } } :
          SoftResetStrategy).tick "encounter" 1500
        (some { verdict := ShinyVerdict.Uncertain }) 0).2.decision.action =
      HuntAction.CheckShiny ∧
    (({ config := { shinyCheckState := "encounter", shinyCheckDelayMs := 1500 } } :
          SoftResetStrategy).tick "encounter" 1500
        (some { verdict := ShinyVerdict.Uncertain }) 0).1.stats =
      ({ config := { shinyCheckState := "encounter", shinyCheckDelayMs := 1500 } } :
          SoftResetStrategy).stats :=
  C5_uncertain_recheck _ "encounter" 1500 _ 0 rfl (by decide)
    (Or.inr ⟨{ verdict := ShinyVerdict.Uncertain }, rfl, rfl⟩)

/-- C6: with check delay 1500 ms, in the anomaly-check state every tick with
time-in-state below 1500 ms returns `Wait` regardless of the supplied verdict
and changes no statistics; a tick at or after 1500 ms with a `Shiny` verdict
returns an `AlertShiny` decision and increments the shiny counter by exactly
one, leaving every other counter unchanged. -/
theorem C6_shiny_check_delay (st : SoftResetStrategy) (cs : String) (tis : Nat)
    (sr : Option ShinyResult) (now : Nat)
    (hcs : cs = st.config.shinyCheckState)
    (hdelay : st.config.shinyCheckDelayMs = 1500) :
    ((tis : Int) < 1500 →
      (st.tick cs tis sr now).2 = waitDecision "waiting for shiny check delay" ∧
      (st.tick cs tis sr now).1.stats = st.stats) ∧
    (∀ r : ShinyResult, sr = some r → r.verdict = ShinyVerdict.Shiny →
      1500 ≤ (tis : Int) →
      (st.tick cs tis sr now).2.decision.action = HuntAction.AlertShiny ∧
      (st.tick cs tis sr now).1.stats.shiniesFound = st.stats.shiniesFound + 1 ∧
      (st.tick cs tis sr now).1.stats.encounters = st.stats.encounters ∧
      (st.tick cs tis sr now).1.stats.errors = st.stats.errors ∧
      (st.tick cs tis sr now).1.stats.watchdogRecoveries = st.stats.watchdogRecoveries) := by
  have hcs2 : cs = (stateChangeReset st cs).config.shinyCheckState := by
    rw [stateChangeReset_config]; exact hcs
  have hd2 : (stateChangeReset st cs).config.shinyCheckDelayMs = 1500 := by
    rw [stateChangeReset_config]; exact hdelay
  have hstat := stateChangeReset_stats st cs
  constructor
  · intro hlt
    unfold SoftResetStrategy.tick
    dsimp only
    rw [if_pos hcs2, hd2, if_pos hlt]
    exact ⟨rfl, hstat⟩
  · rintro r rfl hv hge
    unfold SoftResetStrategy.tick
    dsimp only
    rw [if_pos hcs2, hd2, if_neg (not_lt.mpr hge)]
    obtain ⟨v, cf, mth, dt⟩ := r
    simp only at hv
    subst hv
    refine ⟨rfl, by rw [hstat], by rw [hstat], by rw [hstat], by rw [hstat]⟩

/-- Witness for C6 at a concrete strategy, a pre-delay tick and a post-delay
shiny tick. -/
theorem C6_witness :
    ((({ config := { shinyCheckState := "encounter" } } : SoftResetStrategy).tick
          "encounter" 700 (some { verdict := ShinyVerdict.Shiny }) 0).2 =
        waitDecision "waiting for shiny check delay") ∧
    ((({ config := { shinyCheckState := "encounter" } } : SoftResetStrategy).tick
          "encounter" 2000 (some { verdict := ShinyVerdict.Shiny }) 0).2.decision.action =
        HuntAction.AlertShiny) ∧
    ((({ config := { shinyCheckState := "encounter" } } : SoftResetStrategy).tick
          "encounter" 2000 (some { verdict := ShinyVerdict.Shiny }) 0).1.stats.shiniesFound =
        1) := by
  have h1 := (C6_shiny_check_delay { config := { shinyCheckState := "encounter" } }
    "encounter" 700 (some { verdict := ShinyVerdict.Shiny }) 0 rfl rfl).1 (by decide)
  have h2 := (C6_shiny_check_delay { config := { shinyCheckState := "encounter" } }
    "encounter" 2000 (some { verdict := ShinyVerdict.Shiny }) 0 rfl rfl).2
    { verdict := ShinyVerdict.Shiny } rfl rfl (by decide)
  exact ⟨h1.1, h2.1, h2.2.1⟩

/-- C8: `EncodeLuma3DSPacket` produces exactly 20 little-endian bytes laid
out as the specification describes: bytes 0–3 hold `0x00000FFF` with the low
12 bits of the pressed-button mask inverted (arithmetically
`0xFFF - (buttons % 0x1000)`), bytes 4–7 hold `(y<<16)|x` when touching and
the sentinel `0x02000000` otherwise, bytes 8–11 pack the two 12-bit
circle-pad fields `(int(axis*0x5D0)+0x800) & 0xFFF` as `(cy<<12)|cx`,
bytes 12–15 put the two 8-bit c-stick fields `(int(axis*0x7F)+0x80) & 0xFF`
in the high two bytes over the constant `0x0081`, and bytes 16–19 hold the
auxiliary interface-button mask. -/
theorem C8_packet_encoding (cmd : InputCommand)
    (hx : cmd.touch.x < 65536) (_hy : cmd.touch.y < 65536) :
    (encodeLuma3DSPacket cmd).length = 20 ∧
    encodeLuma3DSPacket cmd = encodeLuma3DSPacketSpec cmd := by
  have hlen : (encodeLuma3DSPacket cmd).length = 20 := by
    simp [encodeLuma3DSPacket, writeLe32]
  refine ⟨hlen, ?_⟩
  have hbut := Nat.and_pow_two_sub_one_eq_mod cmd.buttonsPressed 12
  norm_num at hbut
  have htouch : (cmd.touch.y <<< 16) ||| cmd.touch.x =
      cmd.touch.y * 65536 + cmd.touch.x := by
    have h := lor_shiftLeft_eq_add cmd.touch.y cmd.touch.x 16 (by norm_num; exact hx)
    norm_num at h
    exact h
  unfold encodeLuma3DSPacket encodeLuma3DSPacketSpec
  dsimp only
  rw [hbut, hid_mask _ (Nat.mod_lt _ (by norm_num)), htouch,
    toNat_emod32_and_fff, toNat_emod32_and_fff, toNat_emod32_and_ff, toNat_emod32_and_ff,
    circle_word_eq _ _ (by omega), cstick_word_eq _ _ (by omega)]
  simp only [writeLe32_eq_le32BytesSpec]

/-- Witness for C8 at a concrete command (a pressed button, a touch point,
deflected sticks and an interface button). -/
theorem C8_witness :
    ({ buttonsPressed := 0x0001,
       circlePad := { x := 1/2, y := -1/2 },
       cStick := { x := 1, y := -1 },
       touch := { x := 100, y := 200, touching := true },
       interfaceButtons := 1 } : InputCommand).touch.x < 65536 ∧
    ({ buttonsPressed := 0x0001,
       circlePad := { x := 1/2, y := -1/2 },
       cStick := { x := 1, y := -1 },
       touch := { x := 100, y := 200, touching := true },
       interfaceButtons := 1 } : InputCommand).touch.y < 65536 ∧
    encodeLuma3DSPacket
        { buttonsPressed := 0x0001,
          circlePad := { x := 1/2, y := -1/2 },
          cStick := { x := 1, y := -1 },
          touch := { x := 100, y := 200, touching := true },
          interfaceButtons := 1 } =
      encodeLuma3DSPacketSpec
        { buttonsPressed := 0x0001,
          circlePad := { x := 1/2, y := -1/2 },
          cStick := { x := 1, y := -1 },
          touch := { x := 100, y := 200, touching := true },
          interfaceButtons := 1 } :=
  ⟨by decide, by decide, (C8_packet_encoding _ (by decide) (by decide)).2⟩

/-- C9: whenever `Tick` observes a state different from the previous tick's
state, it restarts from action step 0 with the consecutive stuck-recovery
counter cleared (the tick behaves exactly as if those fields had been zeroed
first, and its post-state carries a zero stuck counter); `OnStuck` aborts
exactly when the incremented consecutive counter exceeds `maxRetries`, so
along any run whose ticks never change the observed state and which starts
with a zero counter, at most `maxRetries` `OnStuck` calls can never produce
an `Abort`, while every `OnStuck` call increments the watchdog-recoveries
statistic by one. -/
theorem C9_stuck_reset (st : SoftResetStrategy) :
    (∀ (cs : String) (tis : Nat) (sr : Option ShinyResult) (now : Nat),
        cs ≠ st.lastState →
        st.tick cs tis sr now =
          SoftResetStrategy.tick
            { st with lastState := cs, actionIndex := 0, waitingForShinyCheck := false,
                      consecutiveStuckCount := 0 } cs tis sr now ∧
        (st.tick cs tis sr now).1.consecutiveStuckCount = 0) ∧
    (st.onStuck.1.stats.watchdogRecoveries = st.stats.watchdogRecoveries + 1 ∧
      (st.onStuck.2.decision.action = HuntAction.Abort ↔
        st.config.onStuck.maxRetries < ((st.consecutiveStuckCount + 1 : ℕ) : Int))) ∧
    (∀ events : List StrategyEvent,
        st.consecutiveStuckCount = 0 →
        (∀ e ∈ events, ∀ (cs : String) (tis : Nat) (sr : Option ShinyResult) (now : Nat),
            e = StrategyEvent.tickEvent cs tis sr now → cs = st.lastState) →
        (st.runEvents events).1.stats.watchdogRecoveries =
            st.stats.watchdogRecoveries + countStuck events ∧
        (((countStuck events : Int) ≤ st.config.onStuck.maxRetries) →
          ∀ d ∈ (st.runEvents events).2, d.decision.action ≠ HuntAction.Abort)) := by
  refine ⟨?_, ⟨?_, ?_⟩, ?_⟩
  · intro cs tis sr now hne
    constructor
    · unfold SoftResetStrategy.tick
      rw [stateChangeReset_of_ne st cs hne, stateChangeReset_of_eq _ cs rfl]
    · rw [(tick_fields st cs tis sr now).2.2.1, if_pos hne]
  · unfold SoftResetStrategy.onStuck
    dsimp only
    split <;> rfl
  · unfold SoftResetStrategy.onStuck
    dsimp only
    by_cases hcond : st.config.onStuck.maxRetries < ((st.consecutiveStuckCount + 1 : ℕ) : Int)
    · rw [if_pos hcond]
      simpa using hcond
    · rw [if_neg hcond]
      simp only [Bool.false_eq_true]
      constructor
      · intro hab; cases hab
      · intro hc; exact absurd hc hcond
  · intro events hcount hticks
    have h := runEvents_stuck_aux events st hticks
    refine ⟨h.1, ?_⟩
    intro hbound
    refine h.2.2.2 ?_
    rw [hcount]
    push_cast
    omega

/-- Witness for C9's run clause: two `OnStuck` calls with no intervening
state change never abort and bump the watchdog counter twice. -/
theorem C9_witness :
    (({ config := {} } : SoftResetStrategy).runEvents
          [StrategyEvent.stuckEvent, StrategyEvent.stuckEvent]).1.stats.watchdogRecoveries =
        2 ∧
    (∀ d ∈ (({ config := {} } : SoftResetStrategy).runEvents
          [StrategyEvent.stuckEvent, StrategyEvent.stuckEvent]).2,
        d.decision.action ≠ HuntAction.Abort) := by
  have h := (C9_stuck_reset { config := {} }).2.2
    [StrategyEvent.stuckEvent, StrategyEvent.stuckEvent] rfl
    (by
      intro e he cs tis sr now heq
      rcases List.mem_cons.mp he with rfl | he2
      · simp at heq
      · rcases List.mem_cons.mp he2 with rfl | he3
        · simp at heq
        · simp at he3)
  exact ⟨h.1, h.2 (by decide)⟩

/-- C7: every region a warped image's ROI extraction returns lies fully
inside the `targetWidth × targetHeight` image with positive extent, and a
name-rectangle pair is returned exactly for those definitions whose rounded,
clamped rectangle has positive width and height — all other definitions are
silently omitted, and no fractional values can produce an out-of-bounds
rectangle (the error case of the sub-image view). -/
theorem C7_roi_extraction (roiDefs : List RoiDefinition) (targetWidth targetHeight : Int) :
    (∀ p ∈ extractRois roiDefs targetWidth targetHeight,
        0 ≤ p.2.x ∧ 0 ≤ p.2.y ∧ 0 < p.2.w ∧ 0 < p.2.h ∧
        p.2.x + p.2.w ≤ targetWidth ∧ p.2.y + p.2.h ≤ targetHeight) ∧
    (∀ p, p ∈ extractRois roiDefs targetWidth targetHeight ↔
        ∃ d ∈ roiDefs, d.name = p.1 ∧ extractRoiRect d targetWidth targetHeight = p.2 ∧
          0 < p.2.w ∧ 0 < p.2.h) := by
  have hmem : ∀ p, p ∈ extractRois roiDefs targetWidth targetHeight ↔
      ∃ d ∈ roiDefs, d.name = p.1 ∧ extractRoiRect d targetWidth targetHeight = p.2 ∧
        0 < p.2.w ∧ 0 < p.2.h := by
    intro p
    simp only [extractRois, List.mem_filterMap]
    constructor
    · rintro ⟨d, hd, hf⟩
      by_cases hpos : 0 < (extractRoiRect d targetWidth targetHeight).w ∧
          0 < (extractRoiRect d targetWidth targetHeight).h
      · rw [if_pos hpos] at hf
        have hp : (d.name, extractRoiRect d targetWidth targetHeight) = p :=
          Option.some.inj hf
        subst hp
        exact ⟨d, hd, rfl, rfl, hpos⟩
      · rw [if_neg hpos] at hf; cases hf
    · rintro ⟨d, hd, hname, hrect, hw, hh⟩
      refine ⟨d, hd, ?_⟩
      rw [hrect, if_pos ⟨hw, hh⟩]
      cases p
      simp_all
  refine ⟨?_, hmem⟩
  intro p hp
  obtain ⟨d, _, _, hrect, hw, hh⟩ := (hmem p).1 hp
  rw [← hrect] at hw hh ⊢
  simp only [extractRoiRect] at hw hh ⊢
  refine ⟨le_max_left _ _, le_max_left _ _, hw, hh, ?_, ?_⟩ <;> omega

/-- Witness for C7 at a full-screen ROI definition on a 400×240 image. -/
theorem C7_witness :
    (⟨"full_screen", { x := 0, y := 0, w := 400, h := 240 }⟩ : String × RoiRect) ∈
        extractRois [{ name := "full_screen", x := 0, y := 0, w := 1, h := 1 }] 400 240 ∧
      (0 : Int) ≤ (0 : Int) ∧ (0 : Int) ≤ (0 : Int) ∧ (0 : Int) < 400 ∧ (0 : Int) < 240 ∧
      (0 + 400 : Int) ≤ 400 ∧ (0 + 240 : Int) ≤ 240 := by
  have heval : extractRois [{ name := "full_screen", x := 0, y := 0, w := 1, h := 1 }] 400 240 =
      [⟨"full_screen", { x := 0, y := 0, w := 400, h := 240 }⟩] := by
    simp only [extractRois, extractRoiRect, cppRound, List.filterMap]
    norm_num [Int.floor_eq_iff]
  have hmem : (⟨"full_screen", { x := 0, y := 0, w := 400, h := 240 }⟩ : String × RoiRect) ∈
      extractRois [{ name := "full_screen", x := 0, y := 0, w := 1, h := 1 }] 400 240 := by
    rw [heval]; exact List.mem_singleton.mpr rfl
  refine ⟨hmem, ?_⟩
  exact (C7_roi_extraction [{ name := "full_screen", x := 0, y := 0, w := 1, h := 1 }]
    400 240).1 _ hmem

end SH3DS
